import Mathlib

/-!
# IVIRS Trust-Based Report Validation & Dispatch Pipeline — verification

Shallow embedding of `scripts/sumo_controller.py` (classes `RSU`,
`IncidentReport`, `VehicleTrustManager`, `IVIRSController`).

Modelling conventions:
* Python floats become `ℚ`; every constant in the controller is an exact
  decimal, so rational arithmetic is faithful.
* Euclidean distances are represented by their squares (`dist2`); every
  comparison in the source compares a distance against a nonnegative
  constant (or another distance), and squaring is monotone on
  nonnegative reals, so each source comparison `dist < c` is embedded as
  `dist2 < c^2`.
* Mutable `IncidentReport` objects are shared between RSU queues and the
  controller's report lists, so reports live in a heap: the list
  `reports` of the controller state, addressed by position; queues and
  report lists hold indices into it.
* Python dicts with default values (`defaultdict(lambda: 0.5)`) become
  association lists with a defaulting lookup.
* External inputs (TraCI parameters, random offsets) become function
  parameters of the corresponding operation.
-/

/-- Squared Euclidean distance between two points (see the modelling
note above: the source compares `math.sqrt` distances against constants,
which is equivalent to comparing squares). -/
def dist2 (p q : ℚ × ℚ) : ℚ :=
  (p.1 - q.1) ^ 2 + (p.2 - q.2) ^ 2

/-- `class RSU` (sumo_controller.py lines 35-50). `reports_received`
holds heap indices of `IncidentReport`s. -/
structure RSU where
  id : Nat
  x : ℚ
  y : ℚ
  coverage_radius : ℚ
  reports_received : List Nat
  vehicles_in_range : List String
deriving DecidableEq

/-- `class IncidentReport` (lines 52-62): all fields set by
`__init__`. -/
structure IncidentReport where
  vehicle_id : String
  report_type : String
  location : ℚ × ℚ
  timestamp : ℚ
  is_fake : Bool
  witnesses : List String
  rsu_id : Option Nat
  validated : Bool
  trust_score : ℚ
deriving DecidableEq

/-- `IncidentReport.__init__`: a fresh report has no witnesses, no RSU,
is unvalidated and starts at trust score 0.5. -/
def mkIncidentReport (vehicle_id report_type : String) (location : ℚ × ℚ)
    (timestamp : ℚ) (is_fake : Bool) : IncidentReport :=
  { vehicle_id := vehicle_id
    report_type := report_type
    location := location
    timestamp := timestamp
    is_fake := is_fake
    witnesses := []
    rsu_id := none
    validated := false
    trust_score := 1/2 }

/-- Lookup in the trust map, `defaultdict(lambda: 0.5)` semantics
(`VehicleTrustManager.get_trust_score`, lines 89-90). -/
def trustGet : List (String × ℚ) → String → ℚ
  | [], _ => 1/2
  | (k, v) :: rest, vid => if k = vid then v else trustGet rest vid

/-- Write one key of the trust map (first occurrence replaced, missing
key appended). -/
def trustSet : List (String × ℚ) → String → ℚ → List (String × ℚ)
  | [], vid, q => [(vid, q)]
  | (k, v) :: rest, vid, q =>
      if k = vid then (vid, q) :: rest else (k, v) :: trustSet rest vid q

/-- Lookup in the vehicle-position map (`self.vehicle_positions`), where
a missing key means the vehicle is absent this tick. -/
def posGet : List (String × (ℚ × ℚ)) → String → Option (ℚ × ℚ)
  | [], _ => none
  | (k, p) :: rest, vid => if k = vid then some p else posGet rest vid

/-- `VehicleTrustManager.update_trust` (lines 81-87). -/
def update_trust (trust : List (String × ℚ)) (vehicle_id : String)
    (report_validated report_fake : Bool) : List (String × ℚ) :=
  let current := trustGet trust vehicle_id
  if report_validated && !report_fake then
    trustSet trust vehicle_id (min 1 (current + 1/10))
  else if report_fake then
    trustSet trust vehicle_id (max 0 (current - 3/10))
  else trust

/-- `IVIRSController.validate_report` (lines 294-310): credibility score
from reputation, witness count, and location plausibility.  Reads the
trust map and the current vehicle positions; never reads `is_fake`. -/
def validate_report (trust : List (String × ℚ))
    (positions : List (String × (ℚ × ℚ))) (report : IncidentReport) : ℚ :=
  let reporter_trust := trustGet trust report.vehicle_id
  let s1 : ℚ := 1/2 + 3/10 * (reporter_trust - 1/2)
  let witness_count := report.witnesses.length
  let s2 : ℚ :=
    if witness_count ≥ 2 then s1 + 2/5
    else if witness_count = 1 then s1 + 1/5
    else s1 - 1/5
  let s3 : ℚ :=
    match posGet positions report.vehicle_id with
    | none => s2
    | some actual_pos =>
        let d2 := dist2 actual_pos report.location
        if d2 < 100 ^ 2 then s2 + 1/5
        else if d2 > 500 ^ 2 then s2 - 3/10
        else s2
  max 0 (min 1 s3)

/-- `validate_report` with the three report fields it actually reads
(reporter id, witness list length, declared location) passed
explicitly; `validate_report` is definitionally this function applied
to the report's projections, which makes the data-flow of the scoring
function explicit in proofs. -/
def scoreCore (trust : List (String × ℚ)) (positions : List (String × (ℚ × ℚ)))
    (vid : String) (witness_count : Nat) (loc : ℚ × ℚ) : ℚ :=
  let reporter_trust := trustGet trust vid
  let s1 : ℚ := 1/2 + 3/10 * (reporter_trust - 1/2)
  let s2 : ℚ :=
    if witness_count ≥ 2 then s1 + 2/5
    else if witness_count = 1 then s1 + 1/5
    else s1 - 1/5
  let s3 : ℚ :=
    match posGet positions vid with
    | none => s2
    | some actual_pos =>
        let d2 := dist2 actual_pos loc
        if d2 < 100 ^ 2 then s2 + 1/5
        else if d2 > 500 ^ 2 then s2 - 3/10
        else s2
  max 0 (min 1 s3)

/-- The spec's witness term: +0.4 for two or more witnesses, +0.2 for
exactly one, −0.2 for none. -/
def witnessTerm (witness_count : Nat) : ℚ :=
  if witness_count ≥ 2 then 2/5
  else if witness_count = 1 then 1/5
  else -(1/5)

/-- The spec's location-plausibility term, as a function of the squared
distance between the reporter's current position and the declared
location; `none` means the position is unknown (no adjustment). -/
def locTerm : Option ℚ → ℚ
  | none => 0
  | some d2 => if d2 < 100 ^ 2 then 1/5 else if d2 > 500 ^ 2 then -(3/10) else 0

/-- The scoring formula exactly as the spec states it: a sum of the
base 0.5, the reputation term, the witness term and the location term,
clamped to [0,1]. -/
def scoreSpec (reputation : ℚ) (witness_count : Nat) (od2 : Option ℚ) : ℚ :=
  max 0 (min 1 (1/2 + 3/10 * (reputation - 1/2) + witnessTerm witness_count + locTerm od2))

/-- `IVIRSController` mutable state (lines 92-134).  `reports` is the
heap of all `IncidentReport` objects ever created, addressed by
position; the various report lists and the RSU queues hold heap
indices.  The `stats` dict is flattened into one field per counter. -/
structure ControllerState where
  reports : List IncidentReport
  rsus : List RSU
  trust_scores : List (String × ℚ)
  all_reports : List Nat
  real_incidents : List Nat
  fake_reports : List Nat
  detected_fake_reports : List Nat
  emergency_vehicles : List String
  malicious_vehicles : List String
  honest_vehicles : List String
  vehicle_positions : List (String × (ℚ × ℚ))
  stats_total_reports : Nat
  stats_fake_reports : Nat
  stats_real_incidents : Nat
  stats_detected_fakes : Nat
  stats_false_positives : Nat
  stats_emergency_dispatches : Nat
deriving DecidableEq

/-- Dereference a heap index (out-of-range indices, which never occur in
reachable states, yield a dummy report). -/
def heapGet (s : ControllerState) (rid : Nat) : IncidentReport :=
  s.reports.getD rid (mkIncidentReport "" "" (0, 0) 0 false)

/-- One step of the nearest-covering-RSU scan in
`submit_report_to_rsu` (lines 256-260): the accumulator holds the best
`(squared distance, RSU)` seen so far (`none` plays the role of the
initial `min_dist = inf`, for which any distance compares smaller). -/
def selectStep (loc : ℚ × ℚ) (acc : Option (ℚ × RSU)) (r : RSU) :
    Option (ℚ × RSU) :=
  let d2 := dist2 loc (r.x, r.y)
  let better : Bool := match acc with
    | none => true
    | some (m, _) => decide (d2 < m)
  if better && decide (d2 ≤ r.coverage_radius ^ 2) then some (d2, r) else acc

/-- The scan over all RSUs, in id (dict-insertion) order. -/
def selectRSU (rsus : List RSU) (loc : ℚ × ℚ) : Option (ℚ × RSU) :=
  rsus.foldl (selectStep loc) none

/-- A point lies within an RSU's coverage (`dist <= coverage_radius` in
the source, squared here). -/
def covers (r : RSU) (loc : ℚ × ℚ) : Prop :=
  dist2 loc (r.x, r.y) ≤ r.coverage_radius ^ 2

instance (r : RSU) (loc : ℚ × ℚ) : Decidable (covers r loc) := by
  unfold covers
  infer_instance

/-- What the nearest-covering-RSU scan guarantees about its accumulator
after consuming the RSUs in `past`: `none` means no RSU seen so far
covers the location; `some (d, c)` means `c` is a covering RSU already
seen, at squared distance `d`, no closer covering RSU has been seen,
and every covering RSU seen at the same distance has id at least
`c.id`. -/
def selAcc (loc : ℚ × ℚ) (past : List RSU) : Option (ℚ × RSU) → Prop
  | none => ∀ r ∈ past, ¬ covers r loc
  | some (d, c) => c ∈ past ∧ d = dist2 loc (c.x, c.y) ∧ covers c loc ∧
      ∀ r ∈ past, covers r loc →
        d ≤ dist2 loc (r.x, r.y) ∧ (dist2 loc (r.x, r.y) = d → c.id ≤ r.id)

/-- `IVIRSController.submit_report_to_rsu` (lines 251-268): route the
report with heap index `rid` to the nearest covering RSU.  On
acceptance the report's `rsu_id` is set, the report enters that RSU's
queue and `all_reports`, and `total_reports` increments; otherwise the
state is untouched and the call returns `false`. -/
def submit_report_to_rsu (s : ControllerState) (rid : Nat) :
    ControllerState × Bool :=
  let report := heapGet s rid
  match selectRSU s.rsus report.location with
  | some (_, nearest) =>
      ({ s with
          reports := s.reports.set rid { report with rsu_id := some nearest.id }
          rsus := s.rsus.map fun r =>
            if r.id = nearest.id then
              { r with reports_received := r.reports_received ++ [rid] }
            else r
          all_reports := s.all_reports ++ [rid]
          stats_total_reports := s.stats_total_reports + 1 }, true)
  | none => (s, false)

/-- Body of the witness loop in `create_real_incident` (lines 217-224):
for one candidate honest vehicle, if it has a current position within
200 units of the incident, create a fresh report authored by the
witness, record the witness id on the originating incident (heap index
`iid`), and submit the witness's report. -/
def witnessStep (report_type : String) (pos : ℚ × ℚ) (t : ℚ) (iid : Nat)
    (s : ControllerState) (witness_id : String) : ControllerState :=
  match posGet s.vehicle_positions witness_id with
  | none => s
  | some witness_pos =>
      if dist2 pos witness_pos < 200 ^ 2 then
        let rid := s.reports.length
        let s1 := { s with
          reports := s.reports ++ [mkIncidentReport witness_id report_type pos t false] }
        let inc := heapGet s1 iid
        let s2 := { s1 with
          reports := s1.reports.set iid { inc with witnesses := inc.witnesses ++ [witness_id] } }
        (submit_report_to_rsu s2 rid).1
      else s

/-- `IVIRSController.create_real_incident` (lines 202-227): if the
reporter has a current position, record a genuine incident report in
`real_incidents`, let every nearby honest vehicle corroborate it, and
bump the `real_incidents` counter.  (The TraCI speed/colour calls are
external effects with no bearing on controller state.) -/
def create_real_incident (s : ControllerState) (veh_id incident_type : String)
    (current_time : ℚ) : ControllerState :=
  match posGet s.vehicle_positions veh_id with
  | none => s
  | some pos =>
      let iid := s.reports.length
      let s1 := { s with
        reports := s.reports ++ [mkIncidentReport veh_id incident_type pos current_time false]
        real_incidents := s.real_incidents ++ [iid] }
      let s2 := s1.honest_vehicles.foldl (witnessStep incident_type pos current_time iid) s1
      { s2 with stats_real_incidents := s2.stats_real_incidents + 1 }

/-- Body of the loop in `generate_fake_reports` (lines 230-249) for one
malicious vehicle.  The TraCI timer lookup and the random offsets are
external inputs: `due m` says whether `m`'s fake-report timer fires this
tick (a missing/unparseable timer reads as not due, per the blanket
`except`), `off m` is the random `(±500, ±200)` offset and
`fake_type m` the declared type. -/
def fakeStep (t : ℚ) (due : String → Bool) (off : String → ℚ × ℚ)
    (fake_type : String → String) (s : ControllerState) (m : String) :
    ControllerState :=
  match posGet s.vehicle_positions m with
  | none => s
  | some pos =>
      if due m then
        let rid := s.reports.length
        let s1 := { s with
          reports := s.reports ++
            [mkIncidentReport m (fake_type m) (pos.1 + (off m).1, pos.2 + (off m).2) t true]
          fake_reports := s.fake_reports ++ [rid] }
        let s2 := (submit_report_to_rsu s1 rid).1
        { s2 with stats_fake_reports := s2.stats_fake_reports + 1 }
      else s

/-- `IVIRSController.generate_fake_reports` (lines 229-249). -/
def generate_fake_reports (s : ControllerState) (t : ℚ) (due : String → Bool)
    (off : String → ℚ × ℚ) (fake_type : String → String) : ControllerState :=
  s.malicious_vehicles.foldl (fakeStep t due off fake_type) s

/-- Body of the queue loop in `process_reports_at_rsus` (lines
280-292): validate one queued report if it is still pending, classify
it, and fire the reputation update. -/
def processOne (s : ControllerState) (rid : Nat) : ControllerState :=
  let report := heapGet s rid
  if report.validated then s
  else
    let score := validate_report s.trust_scores s.vehicle_positions report
    let s1 := { s with
      reports := s.reports.set rid { report with trust_score := score, validated := true } }
    if score < 3/10 then
      { s1 with
        detected_fake_reports := s1.detected_fake_reports ++ [rid]
        stats_detected_fakes := s1.stats_detected_fakes + 1
        trust_scores := update_trust s1.trust_scores report.vehicle_id true true }
    else
      { s1 with
        trust_scores := update_trust s1.trust_scores report.vehicle_id true false }

/-- `IVIRSController.process_reports_at_rsus` (lines 278-292): walk
every RSU's queue in order.  The queues themselves are not modified by
processing (the source iterates over a copy `reports_received[:]` of an
unchanging list), so the iteration ranges over the incoming state's
queues. -/
def process_reports_at_rsus (s : ControllerState) : ControllerState :=
  s.rsus.foldl (fun acc rsu => rsu.reports_received.foldl processOne acc) s

/-- Body of the loop in `dispatch_emergency_services` (lines 313-317)
for one entry of `all_reports`. -/
def dispatchStep (s : ControllerState) (rid : Nat) : ControllerState :=
  let report := heapGet s rid
  if report.validated && decide (report.trust_score ≥ 7/10) then
    if report.vehicle_id ∈ s.emergency_vehicles then s
    else
      { s with
        emergency_vehicles := s.emergency_vehicles ++ [report.vehicle_id]
        stats_emergency_dispatches := s.stats_emergency_dispatches + 1 }
  else s

/-- `IVIRSController.dispatch_emergency_services` (lines 312-317). -/
def dispatch_emergency_services (s : ControllerState) : ControllerState :=
  s.all_reports.foldl dispatchStep s

/-- `IVIRSController.update_rsu_coverage` (lines 270-276): recompute
each RSU's set of in-range vehicles from the current positions. -/
def update_rsu_coverage (s : ControllerState) : ControllerState :=
  { s with
    rsus := s.rsus.map fun r =>
      let inRange := (s.vehicle_positions.filter
        (fun vp => decide (dist2 (vp.2) (r.x, r.y) ≤ r.coverage_radius ^ 2))).map (·.1)
      { r with vehicles_in_range := inRange } }

/-- The six RSUs installed by `IVIRSController.__init__` (lines
103-110). -/
def ivirsRsus : List RSU :=
  [⟨0, 0, -50, 500, [], []⟩,
   ⟨1, 2000, -50, 500, [], []⟩,
   ⟨2, 4000, -50, 500, [], []⟩,
   ⟨3, 6000, -50, 500, [], []⟩,
   ⟨4, 8000, -50, 500, [], []⟩,
   ⟨5, 10000, -50, 500, [], []⟩]

/-- The controller state right after `IVIRSController.__init__`. -/
def initState : ControllerState :=
  { reports := []
    rsus := ivirsRsus
    trust_scores := []
    all_reports := []
    real_incidents := []
    fake_reports := []
    detected_fake_reports := []
    emergency_vehicles := []
    malicious_vehicles := []
    honest_vehicles := []
    vehicle_positions := []
    stats_total_reports := 0
    stats_fake_reports := 0
    stats_real_incidents := 0
    stats_detected_fakes := 0
    stats_false_positives := 0
    stats_emergency_dispatches := 0 }

/-- One controller-visible transition, following `simulation_step`
(lines 142-184): the per-tick snapshot refresh of positions and role
sets, the two report-creation hooks, coverage refresh, queue
processing, and dispatch.  The incident and fake-report hooks take the
externally supplied data (which vehicle, when, what offsets) as
parameters, so reachability over-approximates every schedule the
external feed can produce. -/
inductive Step : ControllerState → ControllerState → Prop
  | snapshot (s : ControllerState) (pos : List (String × (ℚ × ℚ)))
      (mal hon : List String) :
      Step s { s with
        vehicle_positions := pos
        malicious_vehicles := s.malicious_vehicles ++ mal
        honest_vehicles := s.honest_vehicles ++ hon }
  | incident (s : ControllerState) (veh_id incident_type : String) (t : ℚ) :
      Step s (create_real_incident s veh_id incident_type t)
  | fakes (s : ControllerState) (t : ℚ) (due : String → Bool)
      (off : String → ℚ × ℚ) (fake_type : String → String) :
      Step s (generate_fake_reports s t due off fake_type)
  | coverage (s : ControllerState) : Step s (update_rsu_coverage s)
  | processQueues (s : ControllerState) : Step s (process_reports_at_rsus s)
  | dispatch (s : ControllerState) : Step s (dispatch_emergency_services s)

/-- States the controller can reach from `__init__` by any sequence of
tick operations. -/
def Reachable (s : ControllerState) : Prop :=
  Relation.ReflTransGen Step initState s

/-- The state of `create_real_incident`'s witness loop body just before
the witness report is submitted: the witness's fresh report appended to
the heap and the witness id recorded on the originating incident `iid`
(proof-structuring abbreviation for the lemmas below). -/
def witnessMid (x : ControllerState) (w ty : String) (pos : ℚ × ℚ) (t : ℚ)
    (iid : Nat) : ControllerState :=
  { x with
    reports := (x.reports ++ [mkIncidentReport w ty pos t false]).set iid { heapGet x iid with
      witnesses := (heapGet x iid).witnesses ++ [w] } }

/-- The report with heap index `rid` sits in some RSU's queue. -/
def InQueue (s : ControllerState) (rid : Nat) : Prop :=
  ∃ r ∈ s.rsus, rid ∈ r.reports_received

/-- The controller's structural invariant: every queued heap index is
allocated and refers to a report with an empty witness list, and every
fake report in the heap has an empty witness list. -/
def CtrlInv (s : ControllerState) : Prop :=
  (∀ rid, InQueue s rid → rid < s.reports.length ∧ (heapGet s rid).witnesses = []) ∧
  (∀ rid, rid < s.reports.length → (heapGet s rid).is_fake = true →
    (heapGet s rid).witnesses = [])

/-- Overwrite only the ground-truth `is_fake` flag of the report at
heap index `rid` (used to state noninterference: the flag is
simulation-only and the Validation Engine never reads it). -/
def setFake (s : ControllerState) (rid : Nat) (b : Bool) : ControllerState :=
  { s with reports := s.reports.set rid { heapGet s rid with is_fake := b } }

/-- A state with two validated, dispatch-eligible reports from the same
reporter `"v"` carrying distinct timestamps (used to probe the dispatch
dedup key). -/
def twoReportState : ControllerState :=
  { initState with
    reports :=
      [{ mkIncidentReport "v" "accident" (0, 0) 1 false with
          validated := true, trust_score := 8/10 },
       { mkIncidentReport "v" "accident" (0, 0) 2 false with
          validated := true, trust_score := 8/10 }]
    all_reports := [0, 1] }

/-- A state with one vehicle `"v"` positioned inside RSU 0's coverage
and no honest vehicles at all (used to probe the zero-witness incident
edge case). -/
def lonelyReporterState : ControllerState :=
  { initState with vehicle_positions := [("v", (0, 0))] }

/-- A state holding one report whose declared location `(20000, 0)`
lies beyond every RSU's coverage (the last RSU sits at x = 10000 with
radius 500). -/
def strandedReportState : ControllerState :=
  { initState with
    reports := [mkIncidentReport "v" "accident" (20000, 0) 3 false] }

/-- The state after the first tick's snapshot: one malicious vehicle
`"m"` at the origin. -/
def exSnap : ControllerState :=
  { initState with
    vehicle_positions := [("m", (0, 0))]
    malicious_vehicles := ["m"]
    honest_vehicles := [] }

/-- `exSnap` after `"m"`'s fake-report timer fires with zero random
offset: one fake report sits in RSU 0's queue. -/
def exFaked : ControllerState :=
  generate_fake_reports exSnap 5 (fun m => m == "m") (fun _ => (0, 0))
    (fun _ => "accident")

example : witnessTerm 0 = -(1/5) := by norm_num [witnessTerm]
example : (max 0 (min 1 ((1:ℚ)/2 + 1/5)) : ℚ) = 7/10 := by norm_num
example :
    validate_report [] [] (mkIncidentReport "v" "accident" (0, 0) 1 false)
      = 3/10 := by norm_num [validate_report, mkIncidentReport, trustGet, posGet]

-- Spec §8 Scenario A: reputation 0.5, no witnesses, distance 600 ⇒ score 0.
example :
    validate_report [("v", 1/2)] [("v", (0, 0))]
      { mkIncidentReport "v" "accident" (600, 0) 1 false with witnesses := [] }
      = 0 := by
  norm_num [validate_report, mkIncidentReport, trustGet, posGet, dist2]

-- Spec §8 Scenario B: reputation 0.9, three witnesses, distance 50 ⇒ clamp to 1.
example :
    validate_report [("v", 9/10)] [("v", (0, 0))]
      { mkIncidentReport "v" "accident" (50, 0) 1 false with witnesses := ["a", "b", "c"] }
      = 1 := by
  norm_num [validate_report, mkIncidentReport, trustGet, posGet, dist2]

-- Spec §8 Scenario C: reputation 0.5, one witness, position unknown ⇒ 0.7.
example :
    validate_report [("v", 1/2)] []
      { mkIncidentReport "v" "accident" (600, 0) 1 false with witnesses := ["a"] }
      = 7/10 := by
  norm_num [validate_report, mkIncidentReport, trustGet, posGet, dist2]

/-- C1: for every report, `validate_report` computes exactly the spec's
scoring formula — 0.5, plus 0.3·(reputation − 0.5), plus the witness
term (+0.4 / +0.2 / −0.2), plus the location term (+0.2 under 100
units, −0.3 beyond 500 units, 0 otherwise, and 0 when the reporter's
current position is unknown), clamped to [0,1]. -/
theorem validate_report_matches_spec_formula
    (trust : List (String × ℚ)) (positions : List (String × (ℚ × ℚ)))
    (report : IncidentReport) :
    validate_report trust positions report =
      scoreSpec (trustGet trust report.vehicle_id) report.witnesses.length
        ((posGet positions report.vehicle_id).map fun p => dist2 p report.location) := by
  unfold validate_report scoreSpec witnessTerm locTerm
  cases h : posGet positions report.vehicle_id with
  | none =>
      simp only [Option.map_none']
      split_ifs <;> ring_nf
  | some p =>
      simp only [Option.map_some']
      split_ifs <;> ring_nf

/-! ## Helper lemmas -/

theorem validate_report_eq_scoreCore (trust : List (String × ℚ))
    (positions : List (String × (ℚ × ℚ))) (r : IncidentReport) :
    validate_report trust positions r =
      scoreCore trust positions r.vehicle_id r.witnesses.length r.location := rfl

theorem getD_set_self {α : Type} (l : List α) (n : Nat) (a d : α)
    (h : n < l.length) : (l.set n a).getD n d = a := by
  simp [List.getD, List.getElem?_set_eq_of_lt, h]

theorem processOne_of_validated (s : ControllerState) (rid : Nat)
    (hv : (heapGet s rid).validated = true) : processOne s rid = s := by
  unfold processOne
  simp [hv]

theorem processOne_eq_detected (s : ControllerState) (rid : Nat)
    (hv : (heapGet s rid).validated = false)
    (hc : validate_report s.trust_scores s.vehicle_positions (heapGet s rid) < 3/10) :
    processOne s rid = { s with
      reports := s.reports.set rid { heapGet s rid with
        trust_score := validate_report s.trust_scores s.vehicle_positions (heapGet s rid),
        validated := true }
      detected_fake_reports := s.detected_fake_reports ++ [rid]
      stats_detected_fakes := s.stats_detected_fakes + 1
      trust_scores := update_trust s.trust_scores (heapGet s rid).vehicle_id true true } := by
  unfold processOne
  simp [hv, hc]

theorem processOne_eq_accepted (s : ControllerState) (rid : Nat)
    (hv : (heapGet s rid).validated = false)
    (hc : ¬ validate_report s.trust_scores s.vehicle_positions (heapGet s rid) < 3/10) :
    processOne s rid = { s with
      reports := s.reports.set rid { heapGet s rid with
        trust_score := validate_report s.trust_scores s.vehicle_positions (heapGet s rid),
        validated := true }
      trust_scores := update_trust s.trust_scores (heapGet s rid).vehicle_id true false } := by
  unfold processOne
  simp [hv, hc]

theorem heapGet_setFake_self (s : ControllerState) (rid : Nat) (b : Bool)
    (h : rid < s.reports.length) :
    heapGet (setFake s rid b) rid = { heapGet s rid with is_fake := b } := by
  simp [setFake, heapGet, List.getD, List.getElem?_set_eq_of_lt, h]

theorem setFake_of_length_le (s : ControllerState) (rid : Nat) (b : Bool)
    (h : s.reports.length ≤ rid) : setFake s rid b = s := by
  unfold setFake
  rw [List.set_eq_of_length_le h]

theorem processOne_length (s : ControllerState) (rid : Nat) :
    (processOne s rid).reports.length = s.reports.length := by
  unfold processOne
  by_cases hv : (heapGet s rid).validated
  · simp [hv]
  · simp only [hv, Bool.false_eq_true, if_false]
    split <;> simp

theorem processOne_setFake_comm (s : ControllerState) (rid : Nat) (b : Bool) :
    processOne (setFake s rid b) rid = setFake (processOne s rid) rid b := by
  by_cases hlt : rid < s.reports.length
  · have hget : heapGet (setFake s rid b) rid = { heapGet s rid with is_fake := b } :=
      heapGet_setFake_self s rid b hlt
    have hscore : validate_report (setFake s rid b).trust_scores
        (setFake s rid b).vehicle_positions (heapGet (setFake s rid b) rid) =
        validate_report s.trust_scores s.vehicle_positions (heapGet s rid) := by
      rw [hget]; rfl
    by_cases hv : (heapGet s rid).validated = true
    · rw [processOne_of_validated _ _ (by rw [hget]; exact hv),
        processOne_of_validated _ _ hv]
    · have hv' : (heapGet s rid).validated = false := by
        simpa using hv
      have hvb : (heapGet (setFake s rid b) rid).validated = false := by
        rw [hget]; exact hv'
      by_cases hc : validate_report s.trust_scores s.vehicle_positions (heapGet s rid) < 3/10
      · rw [processOne_eq_detected _ _ hvb (by rw [hscore]; exact hc),
          processOne_eq_detected _ _ hv' hc]
        rw [hget] at hscore ⊢
        rw [hscore]
        simp [setFake, heapGet, List.getD, List.getElem?_set_eq_of_lt, hlt, List.set_set]
      · rw [processOne_eq_accepted _ _ hvb (by rw [hscore]; exact hc),
          processOne_eq_accepted _ _ hv' hc]
        rw [hget] at hscore ⊢
        rw [hscore]
        simp [setFake, heapGet, List.getD, List.getElem?_set_eq_of_lt, hlt, List.set_set]
  · have h1 : setFake s rid b = s := setFake_of_length_le s rid b (le_of_not_lt hlt)
    have h2 : setFake (processOne s rid) rid b = processOne s rid :=
      setFake_of_length_le _ rid b (by rw [processOne_length]; exact le_of_not_lt hlt)
    rw [h1, h2]


theorem trustGet_trustSet_self (t : List (String × ℚ)) (vid : String) (q : ℚ) :
    trustGet (trustSet t vid q) vid = q := by
  induction t with
  | nil => simp [trustGet, trustSet]
  | cons kv rest ih =>
      obtain ⟨k, v⟩ := kv
      by_cases hk : k = vid <;> simp [trustGet, trustSet, hk, ih]

theorem trustGet_trustSet_ne (t : List (String × ℚ)) (vid v : String) (q : ℚ)
    (h : v ≠ vid) : trustGet (trustSet t vid q) v = trustGet t v := by
  induction t with
  | nil => simp [trustGet, trustSet, Ne.symm h]
  | cons kv rest ih =>
      obtain ⟨k, v'⟩ := kv
      by_cases hk : k = vid
      · subst hk
        simp [trustGet, trustSet, Ne.symm h]
      · simp [trustGet, trustSet, hk, ih]

theorem foldl_preserve {σ α : Type} (f : σ → α → σ) (P : σ → Prop)
    (l : List α) (s : σ) (hs : P s) (hf : ∀ x a, P x → P (f x a)) :
    P (l.foldl f s) := by
  induction l generalizing s with
  | nil => exact hs
  | cons a rest ih => exact ih (f s a) (hf s a hs)

theorem submit_eq_of_none (s : ControllerState) (rid : Nat)
    (h : selectRSU s.rsus (heapGet s rid).location = none) :
    submit_report_to_rsu s rid = (s, false) := by
  unfold submit_report_to_rsu
  simp [h]

theorem submit_eq_of_some (s : ControllerState) (rid : Nat) (d : ℚ) (r : RSU)
    (h : selectRSU s.rsus (heapGet s rid).location = some (d, r)) :
    submit_report_to_rsu s rid =
      ({ s with
          reports := s.reports.set rid { heapGet s rid with rsu_id := some r.id }
          rsus := s.rsus.map fun r' =>
            if r'.id = r.id then
              { r' with reports_received := r'.reports_received ++ [rid] }
            else r'
          all_reports := s.all_reports ++ [rid]
          stats_total_reports := s.stats_total_reports + 1 }, true) := by
  unfold submit_report_to_rsu
  simp [h]

theorem submit_trust_scores (s : ControllerState) (rid : Nat) :
    ((submit_report_to_rsu s rid).1).trust_scores = s.trust_scores := by
  cases h : selectRSU s.rsus (heapGet s rid).location with
  | none => rw [submit_eq_of_none s rid h]
  | some p =>
      obtain ⟨d, r⟩ := p
      rw [submit_eq_of_some s rid d r h]

theorem witnessStep_trust_scores (ty : String) (pos : ℚ × ℚ) (t : ℚ) (iid : Nat)
    (s : ControllerState) (wid : String) :
    (witnessStep ty pos t iid s wid).trust_scores = s.trust_scores := by
  unfold witnessStep
  cases hp : posGet s.vehicle_positions wid with
  | none => rfl
  | some wp =>
      by_cases hd : dist2 pos wp < 200 ^ 2
      · simp only [hd, if_true]
        rw [submit_trust_scores]
      · simp [hd]

theorem create_real_incident_trust_scores (s : ControllerState)
    (veh_id incident_type : String) (t : ℚ) :
    (create_real_incident s veh_id incident_type t).trust_scores = s.trust_scores := by
  unfold create_real_incident
  cases hp : posGet s.vehicle_positions veh_id with
  | none => rfl
  | some pos =>
      simp only
      have := foldl_preserve (witnessStep incident_type pos t s.reports.length)
        (fun x : ControllerState => x.trust_scores = s.trust_scores) s.honest_vehicles
      exact this _ rfl (fun x a hx => (witnessStep_trust_scores incident_type pos t s.reports.length x a).trans hx)

theorem fakeStep_trust_scores (t : ℚ) (due : String → Bool) (off : String → ℚ × ℚ)
    (fake_type : String → String) (s : ControllerState) (m : String) :
    (fakeStep t due off fake_type s m).trust_scores = s.trust_scores := by
  unfold fakeStep
  cases hp : posGet s.vehicle_positions m with
  | none => rfl
  | some pos =>
      by_cases hd : due m
      · simp only [hd, if_true]
        rw [submit_trust_scores]
      · simp [hd]

theorem generate_fake_reports_trust_scores (s : ControllerState) (t : ℚ)
    (due : String → Bool) (off : String → ℚ × ℚ) (fake_type : String → String) :
    (generate_fake_reports s t due off fake_type).trust_scores = s.trust_scores := by
  unfold generate_fake_reports
  exact foldl_preserve (fakeStep t due off fake_type)
    (fun x : ControllerState => x.trust_scores = s.trust_scores) _ _ rfl
    (fun x a hx => (fakeStep_trust_scores t due off fake_type x a).trans hx)

theorem dispatchStep_trust_scores (s : ControllerState) (rid : Nat) :
    (dispatchStep s rid).trust_scores = s.trust_scores := by
  unfold dispatchStep
  by_cases hb : ((heapGet s rid).validated && decide ((heapGet s rid).trust_score ≥ 7/10)) = true
  · by_cases hm : (heapGet s rid).vehicle_id ∈ s.emergency_vehicles <;> simp [hb, hm]
  · simp [hb]

theorem dispatch_trust_scores (s : ControllerState) :
    (dispatch_emergency_services s).trust_scores = s.trust_scores := by
  unfold dispatch_emergency_services
  exact foldl_preserve dispatchStep
    (fun x : ControllerState => x.trust_scores = s.trust_scores) _ _ rfl
    (fun x a hx => (dispatchStep_trust_scores x a).trans hx)

theorem update_rsu_coverage_trust_scores (s : ControllerState) :
    (update_rsu_coverage s).trust_scores = s.trust_scores := rfl


theorem dispatchStep_not_eligible (s : ControllerState) (rid : Nat)
    (h : ((heapGet s rid).validated && decide ((heapGet s rid).trust_score ≥ 7/10)) = false) :
    dispatchStep s rid = s := by
  unfold dispatchStep
  simp [h]

theorem dispatchStep_already_member (s : ControllerState) (rid : Nat)
    (hb : ((heapGet s rid).validated && decide ((heapGet s rid).trust_score ≥ 7/10)) = true)
    (hm : (heapGet s rid).vehicle_id ∈ s.emergency_vehicles) :
    dispatchStep s rid = s := by
  unfold dispatchStep
  simp [hb, hm]

theorem dispatchStep_insert (s : ControllerState) (rid : Nat)
    (hb : ((heapGet s rid).validated && decide ((heapGet s rid).trust_score ≥ 7/10)) = true)
    (hm : (heapGet s rid).vehicle_id ∉ s.emergency_vehicles) :
    dispatchStep s rid = { s with
      emergency_vehicles := s.emergency_vehicles ++ [(heapGet s rid).vehicle_id]
      stats_emergency_dispatches := s.stats_emergency_dispatches + 1 } := by
  unfold dispatchStep
  simp [hb, hm]

theorem dispatch_fold_spec (s : ControllerState) (l : List Nat) :
    ∀ (x : ControllerState), x.reports = s.reports →
      (∀ v, v ∈ (l.foldl dispatchStep x).emergency_vehicles ↔
        v ∈ x.emergency_vehicles ∨ ∃ rid, rid ∈ l ∧ (heapGet s rid).validated = true ∧
          7/10 ≤ (heapGet s rid).trust_score ∧ (heapGet s rid).vehicle_id = v) ∧
      (l.foldl dispatchStep x).stats_emergency_dispatches + x.emergency_vehicles.length =
        x.stats_emergency_dispatches + (l.foldl dispatchStep x).emergency_vehicles.length := by
  induction l with
  | nil => intro x hx; simp
  | cons rid rest ih =>
      intro x hx
      have hgx : heapGet x rid = heapGet s rid := by unfold heapGet; rw [hx]
      rw [List.foldl_cons]
      by_cases hb : ((heapGet s rid).validated &&
          decide ((heapGet s rid).trust_score ≥ 7/10)) = true
      · rcases Bool.and_eq_true _ _ |>.mp hb with ⟨hv, hsc⟩
        have hsc' : (7:ℚ)/10 ≤ (heapGet s rid).trust_score := of_decide_eq_true hsc
        by_cases hm : (heapGet s rid).vehicle_id ∈ x.emergency_vehicles
        · rw [dispatchStep_already_member x rid (hgx ▸ hb) (hgx ▸ hm)]
          obtain ⟨hmem, hcount⟩ := ih x hx
          refine ⟨fun v => ?_, hcount⟩
          rw [hmem v]
          constructor
          · rintro (h | ⟨r, hr, h1, h2, h3⟩)
            · exact Or.inl h
            · exact Or.inr ⟨r, List.mem_cons_of_mem _ hr, h1, h2, h3⟩
          · rintro (h | ⟨r, hr, h1, h2, h3⟩)
            · exact Or.inl h
            · rcases List.mem_cons.mp hr with hr0 | hr'
              · subst hr0; subst h3; exact Or.inl hm
              · exact Or.inr ⟨r, hr', h1, h2, h3⟩
        · rw [dispatchStep_insert x rid (hgx ▸ hb) (hgx ▸ hm), hgx]
          obtain ⟨hmem, hcount⟩ := ih { x with
            emergency_vehicles := x.emergency_vehicles ++ [(heapGet s rid).vehicle_id]
            stats_emergency_dispatches := x.stats_emergency_dispatches + 1 } hx
          constructor
          · intro v
            rw [hmem v]
            simp only [List.mem_append, List.mem_singleton]
            constructor
            · rintro ((h | h) | ⟨r, hr, h1, h2, h3⟩)
              · exact Or.inl h
              · exact Or.inr ⟨rid, List.mem_cons_self _ _, hv, hsc', h.symm⟩
              · exact Or.inr ⟨r, List.mem_cons_of_mem _ hr, h1, h2, h3⟩
            · rintro (h | ⟨r, hr, h1, h2, h3⟩)
              · exact Or.inl (Or.inl h)
              · rcases List.mem_cons.mp hr with hr0 | hr'
                · subst hr0; exact Or.inl (Or.inr h3.symm)
                · exact Or.inr ⟨r, hr', h1, h2, h3⟩
          · dsimp only at hcount
            simp only [List.length_append, List.length_singleton] at hcount
            omega
      · rw [dispatchStep_not_eligible x rid (by rw [hgx]; exact eq_false_of_ne_true hb)]
        obtain ⟨hmem, hcount⟩ := ih x hx
        refine ⟨fun v => ?_, hcount⟩
        rw [hmem v]
        constructor
        · rintro (h | ⟨r, hr, h1, h2, h3⟩)
          · exact Or.inl h
          · exact Or.inr ⟨r, List.mem_cons_of_mem _ hr, h1, h2, h3⟩
        · rintro (h | ⟨r, hr, h1, h2, h3⟩)
          · exact Or.inl h
          · rcases List.mem_cons.mp hr with hr0 | hr'
            · subst hr0
              exfalso
              apply hb
              rw [h1]
              simp [h2]
            · exact Or.inr ⟨r, hr', h1, h2, h3⟩

theorem selectStep_none (loc : ℚ × ℚ) (r : RSU) :
    selectStep loc none r =
      if covers r loc then some (dist2 loc (r.x, r.y), r) else none := by
  unfold selectStep
  by_cases h : dist2 loc (r.x, r.y) ≤ r.coverage_radius ^ 2 <;> simp [covers, h]

theorem selectStep_some (loc : ℚ × ℚ) (r : RSU) (d : ℚ) (c : RSU) :
    selectStep loc (some (d, c)) r =
      if dist2 loc (r.x, r.y) < d ∧ covers r loc then
        some (dist2 loc (r.x, r.y), r)
      else some (d, c) := by
  unfold selectStep
  by_cases h1 : dist2 loc (r.x, r.y) < d <;>
    by_cases h2 : dist2 loc (r.x, r.y) ≤ r.coverage_radius ^ 2 <;>
      simp [covers, h1, h2]

theorem selectStep_selAcc (loc : ℚ × ℚ) (past : List RSU) (r : RSU)
    (rest : List RSU) (acc : Option (ℚ × RSU))
    (hpw : (past ++ r :: rest).Pairwise (fun a b => a.id < b.id))
    (hacc : selAcc loc past acc) :
    selAcc loc (past ++ [r]) (selectStep loc acc r) := by
  cases acc with
  | none =>
      rw [selectStep_none]
      by_cases hcov : covers r loc
      · rw [if_pos hcov]
        refine ⟨List.mem_append_right _ (List.mem_singleton.mpr rfl), rfl, hcov, ?_⟩
        intro p hp hpc
        rcases List.mem_append.mp hp with hp | hp
        · exact absurd hpc (hacc p hp)
        · rw [List.mem_singleton.mp hp]
          exact ⟨le_refl _, fun _ => le_refl _⟩
      · rw [if_neg hcov]
        intro p hp
        rcases List.mem_append.mp hp with hp | hp
        · exact hacc p hp
        · rw [List.mem_singleton.mp hp]
          exact hcov
  | some dc =>
      obtain ⟨d, c⟩ := dc
      obtain ⟨hcmem, hcd, hccov, hmin⟩ := hacc
      rw [selectStep_some]
      by_cases hbet : dist2 loc (r.x, r.y) < d ∧ covers r loc
      · rw [if_pos hbet]
        refine ⟨List.mem_append_right _ (List.mem_singleton.mpr rfl), rfl, hbet.2, ?_⟩
        intro p hp hpc
        rcases List.mem_append.mp hp with hp | hp
        · have := (hmin p hp hpc).1
          constructor
          · exact le_of_lt (lt_of_lt_of_le hbet.1 this)
          · intro heq
            exact absurd heq (ne_of_gt (lt_of_lt_of_le hbet.1 this))
        · rw [List.mem_singleton.mp hp]
          exact ⟨le_refl _, fun _ => le_refl _⟩
      · rw [if_neg hbet]
        refine ⟨List.mem_append_left _ hcmem, hcd, hccov, ?_⟩
        intro p hp hpc
        rcases List.mem_append.mp hp with hp | hp
        · exact hmin p hp hpc
        · rw [List.mem_singleton.mp hp] at hpc ⊢
          have hda : d ≤ dist2 loc (r.x, r.y) := by
            by_contra hlt
            exact hbet ⟨lt_of_not_le hlt, hpc⟩
          refine ⟨hda, fun _ => ?_⟩
          have hidlt : ∀ p ∈ past, p.id < r.id := by
            intro p hp
            have := List.pairwise_append.mp hpw
            exact this.2.2 p hp r (List.mem_cons_self r rest)
          exact le_of_lt (hidlt c hcmem)

theorem selectRSU_selAcc (loc : ℚ × ℚ) (l : List RSU)
    (hpw : l.Pairwise (fun a b => a.id < b.id)) :
    selAcc loc l (selectRSU l loc) := by
  unfold selectRSU
  suffices h : ∀ (todo past : List RSU) (acc : Option (ℚ × RSU)),
      (past ++ todo).Pairwise (fun a b => a.id < b.id) →
      selAcc loc past acc →
      selAcc loc (past ++ todo) (todo.foldl (selectStep loc) acc) by
    have := h l [] none (by simpa using hpw) (by intro r hr; simp at hr)
    simpa using this
  intro todo
  induction todo with
  | nil => intro past acc hpw' hacc; simpa using hacc
  | cons r rest ih =>
      intro past acc hpw' hacc
      have hstep := selectStep_selAcc loc past r rest acc hpw' hacc
      have happ : past ++ r :: rest = (past ++ [r]) ++ rest := by simp
      rw [happ] at hpw'
      have := ih (past ++ [r]) (selectStep loc acc r) hpw' hstep
      rw [List.foldl_cons]
      have happ2 : (past ++ [r]) ++ rest = past ++ r :: rest := by simp
      rw [happ2] at this
      exact this

theorem selectRSU_eq_none (l : List RSU) (loc : ℚ × ℚ)
    (h : ∀ r ∈ l, ¬ covers r loc) : selectRSU l loc = none := by
  unfold selectRSU
  induction l with
  | nil => rfl
  | cons r rest ih =>
      rw [List.foldl_cons, selectStep_none, if_neg (h r (List.mem_cons_self r rest))]
      exact ih fun r' hr' => h r' (List.mem_cons_of_mem _ hr')

theorem pairwise_id_inj (l : List RSU)
    (hpw : l.Pairwise (fun a b => a.id < b.id)) :
    ∀ a ∈ l, ∀ b ∈ l, a.id = b.id → a = b := by
  induction l with
  | nil => simp
  | cons x rest ih =>
      intro a ha b hb heq
      obtain ⟨hx, hrest⟩ := List.pairwise_cons.mp hpw
      rcases List.mem_cons.mp ha with rfl | ha'
      · rcases List.mem_cons.mp hb with rfl | hb'
        · rfl
        · exact absurd heq (ne_of_lt (hx b hb'))
      · rcases List.mem_cons.mp hb with rfl | hb'
        · exact absurd heq.symm (ne_of_lt (hx a ha'))
        · exact ih hrest a ha' b hb' heq

theorem foldl_id {σ α : Type} (f : σ → α → σ) (l : List α) (x : σ)
    (h : ∀ a ∈ l, f x a = x) : l.foldl f x = x := by
  induction l with
  | nil => rfl
  | cons a rest ih =>
      rw [List.foldl_cons, h a (List.mem_cons_self a rest)]
      exact ih fun b hb => h b (List.mem_cons_of_mem _ hb)

theorem witnessStep_id (ty : String) (pos : ℚ × ℚ) (t : ℚ) (iid : Nat)
    (x : ControllerState) (w : String)
    (h : ∀ wp, posGet x.vehicle_positions w = some wp → ¬ dist2 pos wp < 200 ^ 2) :
    witnessStep ty pos t iid x w = x := by
  unfold witnessStep
  cases hpw : posGet x.vehicle_positions w with
  | none => rfl
  | some wp => simp [h wp hpw]

theorem getD_set_ne {α : Type} (l : List α) (m n : Nat) (a d : α) (h : m ≠ n) :
    (l.set m a).getD n d = l.getD n d := by
  simp [List.getD, List.getElem?_set_ne h]

theorem getD_append_lt {α : Type} (l l' : List α) (n : Nat) (d : α)
    (h : n < l.length) : (l ++ l').getD n d = l.getD n d := by
  simp [List.getD, List.getElem?_append, h]

theorem getD_append_self {α : Type} (l : List α) (a d : α) :
    (l ++ [a]).getD l.length d = a := by
  simp [List.getD, List.getElem?_concat_length]

theorem getD_set_proj {α β : Type} (l : List α) (rid r' : Nat) (a d : α)
    (proj : α → β) (hp : rid < l.length → proj a = proj (l.getD rid d)) :
    proj ((l.set rid a).getD r' d) = proj (l.getD r' d) := by
  by_cases hlt : rid < l.length
  · by_cases he : r' = rid
    · subst he
      rw [getD_set_self _ _ _ _ hlt, hp hlt]
    · rw [getD_set_ne _ _ _ _ _ (Ne.symm he)]
  · rw [List.set_eq_of_length_le (le_of_not_lt hlt)]

theorem submit_heap_frame (x : ControllerState) (rid r' : Nat) :
    ((submit_report_to_rsu x rid).1).reports.length = x.reports.length ∧
    (heapGet (submit_report_to_rsu x rid).1 r').witnesses = (heapGet x r').witnesses ∧
    (heapGet (submit_report_to_rsu x rid).1 r').is_fake = (heapGet x r').is_fake := by
  cases h : selectRSU x.rsus (heapGet x rid).location with
  | none =>
      rw [submit_eq_of_none x rid h]
      exact ⟨rfl, rfl, rfl⟩
  | some dc =>
      obtain ⟨d, c⟩ := dc
      rw [submit_eq_of_some x rid d c h]
      refine ⟨by simp, ?_, ?_⟩
      · exact getD_set_proj x.reports rid r' _ _ (fun r => r.witnesses) (fun _ => rfl)
      · exact getD_set_proj x.reports rid r' _ _ (fun r => r.is_fake) (fun _ => rfl)

theorem submit_InQueue (x : ControllerState) (rid q : Nat)
    (h : InQueue ((submit_report_to_rsu x rid).1) q) : InQueue x q ∨ q = rid := by
  cases hsel : selectRSU x.rsus (heapGet x rid).location with
  | none =>
      rw [submit_eq_of_none x rid hsel] at h
      exact Or.inl h
  | some dc =>
      obtain ⟨d, c⟩ := dc
      rw [submit_eq_of_some x rid d c hsel] at h
      obtain ⟨r', hr', hq⟩ := h
      simp only [List.mem_map] at hr'
      obtain ⟨r0, hr0, heq⟩ := hr'
      by_cases hid : r0.id = c.id
      · rw [if_pos hid] at heq
        rw [← heq] at hq
        simp only [List.mem_append, List.mem_singleton] at hq
        rcases hq with hq | hq
        · exact Or.inl ⟨r0, hr0, hq⟩
        · exact Or.inr hq
      · rw [if_neg hid] at heq
        rw [← heq] at hq
        exact Or.inl ⟨r0, hr0, hq⟩

theorem submit_preserves_inv (x : ControllerState) (rid : Nat)
    (hI : CtrlInv x) (hrid : rid < x.reports.length)
    (hwit : (heapGet x rid).witnesses = []) :
    CtrlInv ((submit_report_to_rsu x rid).1) := by
  obtain ⟨hq, hfk⟩ := hI
  obtain ⟨hlen, -, -⟩ := submit_heap_frame x rid 0
  constructor
  · intro q hqq
    rcases submit_InQueue x rid q hqq with hold | heq
    · obtain ⟨hb, hw⟩ := hq q hold
      obtain ⟨-, hw', -⟩ := submit_heap_frame x rid q
      exact ⟨by rw [hlen]; exact hb, by rw [hw']; exact hw⟩
    · refine ⟨?_, ?_⟩
      · rw [hlen, heq]
        exact hrid
      · rw [(submit_heap_frame x rid q).2.1, heq]
        exact hwit
  · intro q hql hqf
    obtain ⟨-, hw', hf'⟩ := submit_heap_frame x rid q
    rw [hw']
    apply hfk q
    · rw [← hlen]; exact hql
    · rw [← hf']; exact hqf

theorem submit_not_inqueue (x : ControllerState) (rid iid : Nat)
    (h : ¬ InQueue x iid) (hne : iid ≠ rid) :
    ¬ InQueue ((submit_report_to_rsu x rid).1) iid := fun hin =>
  (submit_InQueue x rid iid hin).elim h hne

theorem witnessStep_eq (ty : String) (pos : ℚ × ℚ) (t : ℚ) (iid : Nat)
    (x : ControllerState) (w : String) (wp : ℚ × ℚ)
    (hp : posGet x.vehicle_positions w = some wp) (hd : dist2 pos wp < 200 ^ 2)
    (hlt : iid < x.reports.length) :
    witnessStep ty pos t iid x w =
      (submit_report_to_rsu (witnessMid x w ty pos t iid) x.reports.length).1 := by
  have hh : heapGet { x with reports := x.reports ++ [mkIncidentReport w ty pos t false] } iid
      = heapGet x iid := by
    unfold heapGet
    exact getD_append_lt _ _ _ _ hlt
  unfold witnessStep witnessMid
  rw [hp]
  simp only [hd, if_true, hh]

theorem witnessMid_length (x : ControllerState) (w ty : String) (pos : ℚ × ℚ)
    (t : ℚ) (iid : Nat) :
    (witnessMid x w ty pos t iid).reports.length = x.reports.length + 1 := by
  simp [witnessMid]

theorem witnessMid_heapGet_other (x : ControllerState) (w ty : String)
    (pos : ℚ × ℚ) (t : ℚ) (iid q : Nat) (hne : q ≠ iid)
    (hq : q < x.reports.length) :
    heapGet (witnessMid x w ty pos t iid) q = heapGet x q := by
  unfold witnessMid heapGet
  rw [getD_set_ne _ _ _ _ _ (Ne.symm hne), getD_append_lt _ _ _ _ hq]

theorem witnessMid_heapGet_iid (x : ControllerState) (w ty : String)
    (pos : ℚ × ℚ) (t : ℚ) (iid : Nat) (hlt : iid < x.reports.length) :
    heapGet (witnessMid x w ty pos t iid) iid =
      { heapGet x iid with witnesses := (heapGet x iid).witnesses ++ [w] } := by
  unfold witnessMid heapGet
  exact getD_set_self _ _ _ _ (by simp; omega)

theorem witnessMid_heapGet_new (x : ControllerState) (w ty : String)
    (pos : ℚ × ℚ) (t : ℚ) (iid : Nat) (hlt : iid < x.reports.length) :
    heapGet (witnessMid x w ty pos t iid) x.reports.length =
      mkIncidentReport w ty pos t false := by
  unfold witnessMid heapGet
  rw [getD_set_ne _ _ _ _ _ (Nat.ne_of_lt hlt), getD_append_self]

theorem witnessMid_inv (x : ControllerState) (w ty : String) (pos : ℚ × ℚ)
    (t : ℚ) (iid : Nat) (hI : CtrlInv x) (hq : ¬ InQueue x iid)
    (hlt : iid < x.reports.length) (hf : (heapGet x iid).is_fake = false) :
    CtrlInv (witnessMid x w ty pos t iid) := by
  obtain ⟨hqi, hfk⟩ := hI
  constructor
  · intro q hqq
    have hqx : InQueue x q := hqq
    obtain ⟨hb, hw⟩ := hqi q hqx
    have hne : q ≠ iid := fun he => hq (he ▸ hqx)
    rw [witnessMid_length, witnessMid_heapGet_other x w ty pos t iid q hne hb]
    exact ⟨Nat.lt_succ_of_lt hb, hw⟩
  · intro q hql hqf
    rw [witnessMid_length] at hql
    by_cases he : q = iid
    · rw [he] at hqf ⊢
      rw [witnessMid_heapGet_iid x w ty pos t iid hlt] at hqf
      simp only at hqf
      rw [hf] at hqf
      exact absurd hqf (by simp)
    · by_cases hqx : q < x.reports.length
      · rw [witnessMid_heapGet_other x w ty pos t iid q he hqx] at hqf ⊢
        exact hfk q hqx hqf
      · have hq_eq : q = x.reports.length := by omega
        subst hq_eq
        rw [witnessMid_heapGet_new x w ty pos t iid hlt] at hqf
        exact absurd hqf (by simp [mkIncidentReport])

theorem witnessStep_preserves (ty : String) (pos : ℚ × ℚ) (t : ℚ) (iid : Nat)
    (x : ControllerState) (w : String)
    (hI : CtrlInv x) (hq : ¬ InQueue x iid) (hlt : iid < x.reports.length)
    (hf : (heapGet x iid).is_fake = false) :
    CtrlInv (witnessStep ty pos t iid x w) ∧
    ¬ InQueue (witnessStep ty pos t iid x w) iid ∧
    iid < (witnessStep ty pos t iid x w).reports.length ∧
    (heapGet (witnessStep ty pos t iid x w) iid).is_fake = false := by
  cases hp : posGet x.vehicle_positions w with
  | none =>
      have hid : witnessStep ty pos t iid x w = x := by
        unfold witnessStep
        rw [hp]
      rw [hid]
      exact ⟨hI, hq, hlt, hf⟩
  | some wp =>
      by_cases hd : dist2 pos wp < 200 ^ 2
      · rw [witnessStep_eq ty pos t iid x w wp hp hd hlt]
        have hne : iid ≠ x.reports.length := Nat.ne_of_lt hlt
        have hmidI : CtrlInv (witnessMid x w ty pos t iid) :=
          witnessMid_inv x w ty pos t iid hI hq hlt hf
        have hmidlen := witnessMid_length x w ty pos t iid
        have hmidq : ¬ InQueue (witnessMid x w ty pos t iid) iid := hq
        have hnewwit : (heapGet (witnessMid x w ty pos t iid) x.reports.length).witnesses = [] := by
          rw [witnessMid_heapGet_new x w ty pos t iid hlt]
          rfl
        have hnewlt : x.reports.length < (witnessMid x w ty pos t iid).reports.length := by
          rw [hmidlen]
          omega
        have hframe := submit_heap_frame (witnessMid x w ty pos t iid) x.reports.length iid
        refine ⟨?_, ?_, ?_, ?_⟩
        · exact submit_preserves_inv _ _ hmidI hnewlt hnewwit
        · exact submit_not_inqueue _ _ _ hmidq hne
        · rw [hframe.1, hmidlen]
          omega
        · rw [hframe.2.2, witnessMid_heapGet_iid x w ty pos t iid hlt]
          exact hf
      · have hid : witnessStep ty pos t iid x w = x := by
          unfold witnessStep
          rw [hp]
          simp [hd]
        rw [hid]
        exact ⟨hI, hq, hlt, hf⟩

theorem create_real_incident_preserves (s : ControllerState) (vid ty : String)
    (t : ℚ) (hI : CtrlInv s) : CtrlInv (create_real_incident s vid ty t) := by
  unfold create_real_incident
  cases hp : posGet s.vehicle_positions vid with
  | none => exact hI
  | some pos =>
      dsimp only
      have hq0 : ¬ InQueue s s.reports.length := fun hin =>
        absurd (hI.1 s.reports.length hin).1 (lt_irrefl _)
      have hP1 : CtrlInv { s with
          reports := s.reports ++ [mkIncidentReport vid ty pos t false]
          real_incidents := s.real_incidents ++ [s.reports.length] } ∧
          ¬ InQueue { s with
            reports := s.reports ++ [mkIncidentReport vid ty pos t false]
            real_incidents := s.real_incidents ++ [s.reports.length] } s.reports.length ∧
          s.reports.length < ({ s with
            reports := s.reports ++ [mkIncidentReport vid ty pos t false]
            real_incidents := s.real_incidents ++ [s.reports.length] } :
              ControllerState).reports.length ∧
          (heapGet { s with
            reports := s.reports ++ [mkIncidentReport vid ty pos t false]
            real_incidents := s.real_incidents ++ [s.reports.length] }
              s.reports.length).is_fake = false := by
        refine ⟨⟨?_, ?_⟩, hq0, by simp, ?_⟩
        · intro q hqq
          have hqs : InQueue s q := hqq
          obtain ⟨hb, hw⟩ := hI.1 q hqs
          have hget : heapGet { s with
              reports := s.reports ++ [mkIncidentReport vid ty pos t false]
              real_incidents := s.real_incidents ++ [s.reports.length] } q = heapGet s q := by
            unfold heapGet
            exact getD_append_lt _ _ _ _ hb
          rw [hget]
          exact ⟨by simp; omega, hw⟩
        · intro q hql hqf
          simp only [List.length_append, List.length_singleton] at hql
          by_cases hqx : q < s.reports.length
          · have hget : heapGet { s with
                reports := s.reports ++ [mkIncidentReport vid ty pos t false]
                real_incidents := s.real_incidents ++ [s.reports.length] } q = heapGet s q := by
              unfold heapGet
              exact getD_append_lt _ _ _ _ hqx
            rw [hget] at hqf ⊢
            exact hI.2 q hqx hqf
          · have hq_eq : q = s.reports.length := by omega
            rw [hq_eq] at hqf
            have hget : heapGet { s with
                reports := s.reports ++ [mkIncidentReport vid ty pos t false]
                real_incidents := s.real_incidents ++ [s.reports.length] } s.reports.length =
                mkIncidentReport vid ty pos t false := by
              unfold heapGet
              exact getD_append_self _ _ _
            rw [hget] at hqf
            exact absurd hqf (by simp [mkIncidentReport])
        · have hget : heapGet { s with
              reports := s.reports ++ [mkIncidentReport vid ty pos t false]
              real_incidents := s.real_incidents ++ [s.reports.length] } s.reports.length =
              mkIncidentReport vid ty pos t false := by
            unfold heapGet
            exact getD_append_self _ _ _
          rw [hget]
          rfl
      have hfold := foldl_preserve (witnessStep ty pos t s.reports.length)
        (fun x : ControllerState => CtrlInv x ∧ ¬ InQueue x s.reports.length ∧
          s.reports.length < x.reports.length ∧
          (heapGet x s.reports.length).is_fake = false)
        s.honest_vehicles _ hP1
        (fun x a hx => witnessStep_preserves ty pos t s.reports.length x a
          hx.1 hx.2.1 hx.2.2.1 hx.2.2.2)
      exact hfold.1

theorem fakeStep_preserves (t : ℚ) (due : String → Bool) (off : String → ℚ × ℚ)
    (fake_type : String → String) (x : ControllerState) (m : String)
    (hI : CtrlInv x) : CtrlInv (fakeStep t due off fake_type x m) := by
  unfold fakeStep
  cases hp : posGet x.vehicle_positions m with
  | none => exact hI
  | some pos =>
      by_cases hd : due m
      · simp only [hd, if_true]
        have hs1 : CtrlInv { x with
            reports := x.reports ++
              [mkIncidentReport m (fake_type m) (pos.1 + (off m).1, pos.2 + (off m).2) t true]
            fake_reports := x.fake_reports ++ [x.reports.length] } := by
          constructor
          · intro q hqq
            have hqs : InQueue x q := hqq
            obtain ⟨hb, hw⟩ := hI.1 q hqs
            have hget : heapGet { x with
                reports := x.reports ++
                  [mkIncidentReport m (fake_type m) (pos.1 + (off m).1, pos.2 + (off m).2) t true]
                fake_reports := x.fake_reports ++ [x.reports.length] } q = heapGet x q := by
              unfold heapGet
              exact getD_append_lt _ _ _ _ hb
            rw [hget]
            exact ⟨by simp; omega, hw⟩
          · intro q hql hqf
            simp only [List.length_append, List.length_singleton] at hql
            by_cases hqx : q < x.reports.length
            · have hget : heapGet { x with
                  reports := x.reports ++
                    [mkIncidentReport m (fake_type m) (pos.1 + (off m).1, pos.2 + (off m).2) t true]
                  fake_reports := x.fake_reports ++ [x.reports.length] } q = heapGet x q := by
                unfold heapGet
                exact getD_append_lt _ _ _ _ hqx
              rw [hget] at hqf ⊢
              exact hI.2 q hqx hqf
            · have hq_eq : q = x.reports.length := by omega
              rw [hq_eq]
              have hget : heapGet { x with
                  reports := x.reports ++
                    [mkIncidentReport m (fake_type m) (pos.1 + (off m).1, pos.2 + (off m).2) t true]
                  fake_reports := x.fake_reports ++ [x.reports.length] } x.reports.length =
                  mkIncidentReport m (fake_type m) (pos.1 + (off m).1, pos.2 + (off m).2) t true := by
                unfold heapGet
                exact getD_append_self _ _ _
              rw [hget]
              rfl
          
        have hnewwit : (heapGet { x with
            reports := x.reports ++
              [mkIncidentReport m (fake_type m) (pos.1 + (off m).1, pos.2 + (off m).2) t true]
            fake_reports := x.fake_reports ++ [x.reports.length] } x.reports.length).witnesses = [] := by
          have hget : heapGet { x with
              reports := x.reports ++
                [mkIncidentReport m (fake_type m) (pos.1 + (off m).1, pos.2 + (off m).2) t true]
              fake_reports := x.fake_reports ++ [x.reports.length] } x.reports.length =
              mkIncidentReport m (fake_type m) (pos.1 + (off m).1, pos.2 + (off m).2) t true := by
            unfold heapGet
            exact getD_append_self _ _ _
          rw [hget]
          rfl
        exact submit_preserves_inv _ _ hs1 (by simp) hnewwit
      · simp only [hd, Bool.false_eq_true, if_false]
        exact hI

theorem generate_fake_reports_preserves (s : ControllerState) (t : ℚ)
    (due : String → Bool) (off : String → ℚ × ℚ) (fake_type : String → String)
    (hI : CtrlInv s) : CtrlInv (generate_fake_reports s t due off fake_type) := by
  unfold generate_fake_reports
  exact foldl_preserve (fakeStep t due off fake_type) CtrlInv _ _ hI
    (fun x a hx => fakeStep_preserves t due off fake_type x a hx)

theorem processOne_heap_frame (s : ControllerState) (rid r' : Nat) :
    (heapGet (processOne s rid) r').witnesses = (heapGet s r').witnesses ∧
    (heapGet (processOne s rid) r').is_fake = (heapGet s r').is_fake ∧
    (processOne s rid).rsus = s.rsus := by
  by_cases hv : (heapGet s rid).validated = true
  · rw [processOne_of_validated s rid hv]
    exact ⟨rfl, rfl, rfl⟩
  · have hv' : (heapGet s rid).validated = false := by simpa using hv
    by_cases hc : validate_report s.trust_scores s.vehicle_positions (heapGet s rid) < 3/10
    · rw [processOne_eq_detected s rid hv' hc]
      exact ⟨getD_set_proj s.reports rid r' _ _ (fun r => r.witnesses) (fun _ => rfl),
        getD_set_proj s.reports rid r' _ _ (fun r => r.is_fake) (fun _ => rfl), rfl⟩
    · rw [processOne_eq_accepted s rid hv' hc]
      exact ⟨getD_set_proj s.reports rid r' _ _ (fun r => r.witnesses) (fun _ => rfl),
        getD_set_proj s.reports rid r' _ _ (fun r => r.is_fake) (fun _ => rfl), rfl⟩

theorem processOne_preserves (s : ControllerState) (rid : Nat) (hI : CtrlInv s) :
    CtrlInv (processOne s rid) := by
  constructor
  · intro q hqq
    have hqs : InQueue s q := by
      obtain ⟨r, hr, hq⟩ := hqq
      rw [(processOne_heap_frame s rid 0).2.2] at hr
      exact ⟨r, hr, hq⟩
    obtain ⟨hb, hw⟩ := hI.1 q hqs
    refine ⟨by rw [processOne_length]; exact hb, ?_⟩
    rw [(processOne_heap_frame s rid q).1]
    exact hw
  · intro q hql hqf
    rw [processOne_length] at hql
    rw [(processOne_heap_frame s rid q).1]
    rw [(processOne_heap_frame s rid q).2.1] at hqf
    exact hI.2 q hql hqf

theorem process_reports_preserves (s : ControllerState) (hI : CtrlInv s) :
    CtrlInv (process_reports_at_rsus s) := by
  unfold process_reports_at_rsus
  exact foldl_preserve _ CtrlInv _ _ hI (fun x rsu hx =>
    foldl_preserve processOne CtrlInv _ _ hx (fun y rid hy => processOne_preserves y rid hy))

theorem dispatchStep_frame (s : ControllerState) (rid : Nat) :
    (dispatchStep s rid).reports = s.reports ∧ (dispatchStep s rid).rsus = s.rsus := by
  unfold dispatchStep
  by_cases hb : ((heapGet s rid).validated && decide ((heapGet s rid).trust_score ≥ 7/10)) = true
  · by_cases hm : (heapGet s rid).vehicle_id ∈ s.emergency_vehicles <;> simp [hb, hm]
  · simp [hb]

theorem dispatch_preserves (s : ControllerState) (hI : CtrlInv s) :
    CtrlInv (dispatch_emergency_services s) := by
  unfold dispatch_emergency_services
  refine foldl_preserve dispatchStep CtrlInv _ _ hI (fun x rid hx => ?_)
  constructor
  · intro q hqq
    have hqs : InQueue x q := by
      obtain ⟨r, hr, hq⟩ := hqq
      rw [(dispatchStep_frame x rid).2] at hr
      exact ⟨r, hr, hq⟩
    obtain ⟨hb, hw⟩ := hx.1 q hqs
    unfold heapGet
    rw [(dispatchStep_frame x rid).1]
    exact ⟨hb, hw⟩
  · intro q hql hqf
    unfold heapGet at hqf ⊢
    rw [(dispatchStep_frame x rid).1] at hql hqf ⊢
    exact hx.2 q hql hqf

theorem update_rsu_coverage_preserves (s : ControllerState) (hI : CtrlInv s) :
    CtrlInv (update_rsu_coverage s) := by
  constructor
  · intro q hqq
    have hqs : InQueue s q := by
      obtain ⟨r, hr, hq⟩ := hqq
      unfold update_rsu_coverage at hr
      simp only [List.mem_map] at hr
      obtain ⟨r0, hr0, heq⟩ := hr
      refine ⟨r0, hr0, ?_⟩
      rw [← heq] at hq
      exact hq
    exact hI.1 q hqs
  · exact hI.2

theorem step_preserves_inv {s s' : ControllerState} (hstep : Step s s')
    (hI : CtrlInv s) : CtrlInv s' := by
  cases hstep with
  | snapshot pos mal hon => exact hI
  | incident vid ty t => exact create_real_incident_preserves s vid ty t hI
  | fakes t due off fty => exact generate_fake_reports_preserves s t due off fty hI
  | coverage => exact update_rsu_coverage_preserves s hI
  | processQueues => exact process_reports_preserves s hI
  | dispatch => exact dispatch_preserves s hI

theorem reachable_inv (s : ControllerState) (h : Reachable s) : CtrlInv s := by
  unfold Reachable at h
  induction h with
  | refl =>
      constructor
      · intro q hqq
        obtain ⟨r, hr, hq⟩ := hqq
        simp only [initState, ivirsRsus, List.mem_cons, List.not_mem_nil, or_false] at hr
        rcases hr with rfl | rfl | rfl | rfl | rfl | rfl <;> simp at hq
      · intro q hql
        simp [initState] at hql
  | tail hsteps hstep ih => exact step_preserves_inv hstep ih

theorem processOne_validated_mono (s : ControllerState) (rid r' : Nat)
    (h : (heapGet s r').validated = true) :
    (heapGet (processOne s rid) r').validated = true := by
  by_cases hv : (heapGet s rid).validated = true
  · rw [processOne_of_validated s rid hv]
    exact h
  · have hv' : (heapGet s rid).validated = false := by simpa using hv
    by_cases he : r' = rid
    · rw [he] at h
      exact absurd h (by rw [hv']; simp)
    · by_cases hc : validate_report s.trust_scores s.vehicle_positions (heapGet s rid) < 3/10
      · rw [processOne_eq_detected s rid hv' hc]
        unfold heapGet
        rw [getD_set_ne _ _ _ _ _ (Ne.symm he)]
        exact h
      · rw [processOne_eq_accepted s rid hv' hc]
        unfold heapGet
        rw [getD_set_ne _ _ _ _ _ (Ne.symm he)]
        exact h

theorem processOne_validates (s : ControllerState) (rid : Nat)
    (hlt : rid < s.reports.length) :
    (heapGet (processOne s rid) rid).validated = true := by
  by_cases hv : (heapGet s rid).validated = true
  · rw [processOne_of_validated s rid hv]
    exact hv
  · have hv' : (heapGet s rid).validated = false := by simpa using hv
    by_cases hc : validate_report s.trust_scores s.vehicle_positions (heapGet s rid) < 3/10
    · rw [processOne_eq_detected s rid hv' hc]
      unfold heapGet
      rw [getD_set_self _ _ _ _ hlt]
    · rw [processOne_eq_accepted s rid hv' hc]
      unfold heapGet
      rw [getD_set_self _ _ _ _ hlt]

theorem processQueue_fold (l : List Nat) : ∀ x : ControllerState,
    ((l.foldl processOne x).reports.length = x.reports.length) ∧
    ((l.foldl processOne x).rsus = x.rsus) ∧
    (∀ r', (heapGet x r').validated = true →
      (heapGet (l.foldl processOne x) r').validated = true) ∧
    (∀ rid ∈ l, rid < x.reports.length →
      (heapGet (l.foldl processOne x) rid).validated = true) := by
  induction l with
  | nil =>
      intro x
      exact ⟨rfl, rfl, fun r' h => h, by simp⟩
  | cons rid rest ih =>
      intro x
      rw [List.foldl_cons]
      obtain ⟨ihlen, ihrsus, ihmono, ihval⟩ := ih (processOne x rid)
      refine ⟨by rw [ihlen, processOne_length], by rw [ihrsus, (processOne_heap_frame x rid 0).2.2], ?_, ?_⟩
      · intro r' h
        exact ihmono r' (processOne_validated_mono x rid r' h)
      · intro q hq hqlt
        rcases List.mem_cons.mp hq with rfl | hq'
        · exact ihmono q (processOne_validates x q hqlt)
        · exact ihval q hq' (by rw [processOne_length]; exact hqlt)

theorem processAll_fold (rl : List RSU) : ∀ x : ControllerState,
    ((rl.foldl (fun acc r => r.reports_received.foldl processOne acc) x).reports.length =
      x.reports.length) ∧
    ((rl.foldl (fun acc r => r.reports_received.foldl processOne acc) x).rsus = x.rsus) ∧
    (∀ r', (heapGet x r').validated = true →
      (heapGet (rl.foldl (fun acc r => r.reports_received.foldl processOne acc) x) r').validated = true) ∧
    (∀ r ∈ rl, ∀ rid ∈ r.reports_received, rid < x.reports.length →
      (heapGet (rl.foldl (fun acc r => r.reports_received.foldl processOne acc) x) rid).validated = true) := by
  induction rl with
  | nil =>
      intro x
      exact ⟨rfl, rfl, fun r' h => h, by simp⟩
  | cons r0 rest ih =>
      intro x
      rw [List.foldl_cons]
      obtain ⟨qlen, qrsus, qmono, qval⟩ := processQueue_fold r0.reports_received x
      obtain ⟨ihlen, ihrsus, ihmono, ihval⟩ := ih (r0.reports_received.foldl processOne x)
      refine ⟨by rw [ihlen, qlen], by rw [ihrsus, qrsus], ?_, ?_⟩
      · intro r' h
        exact ihmono r' (qmono r' h)
      · intro r hr rid hrid hlt
        rcases List.mem_cons.mp hr with rfl | hr'
        · exact ihmono rid (qval rid hrid hlt)
        · exact ihval r hr' rid hrid (by rw [qlen]; exact hlt)

theorem process_validates_all (s : ControllerState)
    (hb : ∀ rid, InQueue s rid → rid < s.reports.length) :
    ∀ rid, InQueue (process_reports_at_rsus s) rid →
      (heapGet (process_reports_at_rsus s) rid).validated = true := by
  intro rid hin
  obtain ⟨r, hr, hq⟩ := hin
  unfold process_reports_at_rsus at hr ⊢
  rw [(processAll_fold s.rsus s).2.1] at hr
  exact (processAll_fold s.rsus s).2.2.2 r hr rid hq (hb rid ⟨r, hr, hq⟩)

theorem process_id (s : ControllerState)
    (hall : ∀ rid, InQueue s rid → (heapGet s rid).validated = true) :
    process_reports_at_rsus s = s := by
  unfold process_reports_at_rsus
  apply foldl_id
  intro r hr
  apply foldl_id
  intro rid hrid
  exact processOne_of_validated s rid (hall rid ⟨r, hr, hrid⟩)

theorem fakeStep_eq (t : ℚ) (due : String → Bool) (off : String → ℚ × ℚ)
    (fake_type : String → String) (x : ControllerState) (m : String) (pos : ℚ × ℚ)
    (hp : posGet x.vehicle_positions m = some pos) (hd : due m = true) :
    fakeStep t due off fake_type x m =
      { (submit_report_to_rsu { x with
          reports := x.reports ++
            [mkIncidentReport m (fake_type m) (pos.1 + (off m).1, pos.2 + (off m).2) t true]
          fake_reports := x.fake_reports ++ [x.reports.length] } x.reports.length).1 with
        stats_fake_reports := (submit_report_to_rsu { x with
          reports := x.reports ++
            [mkIncidentReport m (fake_type m) (pos.1 + (off m).1, pos.2 + (off m).2) t true]
          fake_reports := x.fake_reports ++ [x.reports.length] } x.reports.length).1.stats_fake_reports + 1 } := by
  unfold fakeStep
  rw [hp]
  simp only [hd, if_true]

theorem heapGet_bump_fake_stats (y : ControllerState) (n rid : Nat) :
    heapGet { y with stats_fake_reports := n } rid = heapGet y rid := rfl

theorem reports_bump_fake_stats (y : ControllerState) (n : Nat) :
    ({ y with stats_fake_reports := n } : ControllerState).reports = y.reports := rfl

theorem fakeStep_facts (t : ℚ) (due : String → Bool) (off : String → ℚ × ℚ)
    (fake_type : String → String) (x : ControllerState) (m : String) :
    x.reports.length ≤ (fakeStep t due off fake_type x m).reports.length ∧
    (∀ rid, rid < x.reports.length →
      (heapGet (fakeStep t due off fake_type x m) rid).witnesses = (heapGet x rid).witnesses ∧
      (heapGet (fakeStep t due off fake_type x m) rid).is_fake = (heapGet x rid).is_fake) ∧
    (∀ rid, x.reports.length ≤ rid → rid < (fakeStep t due off fake_type x m).reports.length →
      (heapGet (fakeStep t due off fake_type x m) rid).is_fake = true ∧
      (heapGet (fakeStep t due off fake_type x m) rid).witnesses = []) := by
  cases hp : posGet x.vehicle_positions m with
  | none =>
      have hid : fakeStep t due off fake_type x m = x := by
        unfold fakeStep
        rw [hp]
      rw [hid]
      exact ⟨le_refl _, fun rid _ => ⟨rfl, rfl⟩,
        fun rid h1 h2 => absurd h2 (not_lt.mpr h1)⟩
  | some pos =>
      by_cases hd : due m
      · rw [fakeStep_eq t due off fake_type x m pos hp hd]
        have hget1 : ∀ rid, rid < x.reports.length →
            heapGet { x with
              reports := x.reports ++
                [mkIncidentReport m (fake_type m) (pos.1 + (off m).1, pos.2 + (off m).2) t true]
              fake_reports := x.fake_reports ++ [x.reports.length] } rid = heapGet x rid := by
          intro rid hrid
          unfold heapGet
          exact getD_append_lt _ _ _ _ hrid
        have hgetnew : heapGet { x with
            reports := x.reports ++
              [mkIncidentReport m (fake_type m) (pos.1 + (off m).1, pos.2 + (off m).2) t true]
            fake_reports := x.fake_reports ++ [x.reports.length] } x.reports.length =
            mkIncidentReport m (fake_type m) (pos.1 + (off m).1, pos.2 + (off m).2) t true := by
          unfold heapGet
          exact getD_append_self _ _ _
        have hlen := (submit_heap_frame { x with
            reports := x.reports ++
              [mkIncidentReport m (fake_type m) (pos.1 + (off m).1, pos.2 + (off m).2) t true]
            fake_reports := x.fake_reports ++ [x.reports.length] } x.reports.length 0).1
        simp only [List.length_append, List.length_singleton] at hlen
        simp only [heapGet_bump_fake_stats, reports_bump_fake_stats]
        refine ⟨by rw [hlen]; omega, ?_, ?_⟩
        · intro rid hrid
          obtain ⟨-, hw, hf⟩ := submit_heap_frame { x with
            reports := x.reports ++
              [mkIncidentReport m (fake_type m) (pos.1 + (off m).1, pos.2 + (off m).2) t true]
            fake_reports := x.fake_reports ++ [x.reports.length] } x.reports.length rid
          rw [hw, hf, hget1 rid hrid]
          exact ⟨rfl, rfl⟩
        · intro rid h1 h2
          rw [hlen] at h2
          have hrid_eq : rid = x.reports.length := by omega
          subst hrid_eq
          obtain ⟨-, hw, hf⟩ := submit_heap_frame { x with
            reports := x.reports ++
              [mkIncidentReport m (fake_type m) (pos.1 + (off m).1, pos.2 + (off m).2) t true]
            fake_reports := x.fake_reports ++ [x.reports.length] } x.reports.length x.reports.length
          rw [hw, hf, hgetnew]
          exact ⟨rfl, rfl⟩
      · have hid : fakeStep t due off fake_type x m = x := by
          unfold fakeStep
          rw [hp]
          simp [hd]
        rw [hid]
        exact ⟨le_refl _, fun rid _ => ⟨rfl, rfl⟩,
          fun rid h1 h2 => absurd h2 (not_lt.mpr h1)⟩

theorem genfake_fold (l : List String) (t : ℚ) (due : String → Bool)
    (off : String → ℚ × ℚ) (fake_type : String → String) : ∀ x : ControllerState,
    x.reports.length ≤ ((l.foldl (fakeStep t due off fake_type) x)).reports.length ∧
    (∀ rid, rid < x.reports.length →
      (heapGet (l.foldl (fakeStep t due off fake_type) x) rid).witnesses =
        (heapGet x rid).witnesses ∧
      (heapGet (l.foldl (fakeStep t due off fake_type) x) rid).is_fake =
        (heapGet x rid).is_fake) ∧
    (∀ rid, x.reports.length ≤ rid →
      rid < (l.foldl (fakeStep t due off fake_type) x).reports.length →
      (heapGet (l.foldl (fakeStep t due off fake_type) x) rid).is_fake = true ∧
      (heapGet (l.foldl (fakeStep t due off fake_type) x) rid).witnesses = []) := by
  induction l with
  | nil =>
      intro x
      exact ⟨le_refl _, fun rid _ => ⟨rfl, rfl⟩,
        fun rid h1 h2 => absurd h2 (not_lt.mpr h1)⟩
  | cons m rest ih =>
      intro x
      rw [List.foldl_cons]
      obtain ⟨slen, sframe, snew⟩ := fakeStep_facts t due off fake_type x m
      obtain ⟨ihlen, ihframe, ihnew⟩ := ih (fakeStep t due off fake_type x m)
      refine ⟨le_trans slen ihlen, ?_, ?_⟩
      · intro rid hrid
        obtain ⟨ihw, ihf⟩ := ihframe rid (lt_of_lt_of_le hrid slen)
        obtain ⟨sw, sf⟩ := sframe rid hrid
        exact ⟨by rw [ihw, sw], by rw [ihf, sf]⟩
      · intro rid h1 h2
        by_cases hmid : rid < (fakeStep t due off fake_type x m).reports.length
        · obtain ⟨sfk, swt⟩ := snew rid h1 hmid
          obtain ⟨ihw, ihf⟩ := ihframe rid hmid
          exact ⟨by rw [ihf, sfk], by rw [ihw, swt]⟩
        · exact ihnew rid (le_of_not_lt hmid) h2

theorem exSnap_step : Step initState exSnap :=
  Step.snapshot initState [("m", (0, 0))] ["m"] []

theorem exFaked_reachable : Reachable exFaked :=
  Relation.ReflTransGen.tail (Relation.ReflTransGen.single exSnap_step)
    (Step.fakes exSnap 5 (fun m => m == "m") (fun _ => (0, 0)) (fun _ => "accident"))

/-! ## Claims -/

/-- C7: two-run noninterference in the ground-truth fake flag.  Flipping
`is_fake` on a report (a) never changes the score `validate_report`
computes, and (b) commutes with the whole validation step `processOne`:
processing a report whose flag was flipped yields exactly the processed
state with the same flag flipped — same score, same fake/credible
classification (same `detected_fake_reports` and counters), same
reputation update. -/
theorem validation_noninterference_of_fake_flag :
    (∀ (trust : List (String × ℚ)) (positions : List (String × (ℚ × ℚ)))
        (r : IncidentReport) (b : Bool),
      validate_report trust positions { r with is_fake := b } =
        validate_report trust positions r) ∧
    ∀ (s : ControllerState) (rid : Nat) (b : Bool),
      processOne (setFake s rid b) rid = setFake (processOne s rid) rid b :=
  ⟨fun _ _ _ _ => rfl, processOne_setFake_comm⟩

/-- C4: every validation of a pending report fires exactly one
reputation update for its reporter — minus 0.3 clamped at 0 when the
report is flagged fake (score < 0.3), plus 0.1 clamped at 1 when it is
accepted, with every other vehicle's reputation untouched — and no
other controller operation writes the reputation store. -/
theorem validation_updates_reputation_exactly_once (s : ControllerState) (rid : Nat)
    (hv : (heapGet s rid).validated = false) :
    (validate_report s.trust_scores s.vehicle_positions (heapGet s rid) < 3/10 →
      trustGet (processOne s rid).trust_scores (heapGet s rid).vehicle_id =
        max 0 (trustGet s.trust_scores (heapGet s rid).vehicle_id - 3/10)) ∧
    (¬ validate_report s.trust_scores s.vehicle_positions (heapGet s rid) < 3/10 →
      trustGet (processOne s rid).trust_scores (heapGet s rid).vehicle_id =
        min 1 (trustGet s.trust_scores (heapGet s rid).vehicle_id + 1/10)) ∧
    (∀ v, v ≠ (heapGet s rid).vehicle_id →
      trustGet (processOne s rid).trust_scores v = trustGet s.trust_scores v) ∧
    (∀ veh ty t, (create_real_incident s veh ty t).trust_scores = s.trust_scores) ∧
    (∀ t due off fty, (generate_fake_reports s t due off fty).trust_scores = s.trust_scores) ∧
    (∀ r, ((submit_report_to_rsu s r).1).trust_scores = s.trust_scores) ∧
    (dispatch_emergency_services s).trust_scores = s.trust_scores ∧
    (update_rsu_coverage s).trust_scores = s.trust_scores := by
  refine ⟨?_, ?_, ?_, ?_, ?_, ?_, ?_, rfl⟩
  · intro hc
    rw [processOne_eq_detected s rid hv hc]
    simp [update_trust, trustGet_trustSet_self]
  · intro hc
    rw [processOne_eq_accepted s rid hv hc]
    simp [update_trust, trustGet_trustSet_self]
  · intro v hvne
    by_cases hc : validate_report s.trust_scores s.vehicle_positions (heapGet s rid) < 3/10
    · rw [processOne_eq_detected s rid hv hc]
      simp [update_trust, trustGet_trustSet_ne _ _ _ _ hvne]
    · rw [processOne_eq_accepted s rid hv hc]
      simp [update_trust, trustGet_trustSet_ne _ _ _ _ hvne]
  · exact fun veh ty t => create_real_incident_trust_scores s veh ty t
  · exact fun t due off fty => generate_fake_reports_trust_scores s t due off fty
  · exact fun r => submit_trust_scores s r
  · exact dispatch_trust_scores s

theorem validation_updates_reputation_witness :
    (validate_report exFaked.trust_scores exFaked.vehicle_positions (heapGet exFaked 0) < 3/10 →
      trustGet (processOne exFaked 0).trust_scores (heapGet exFaked 0).vehicle_id =
        max 0 (trustGet exFaked.trust_scores (heapGet exFaked 0).vehicle_id - 3/10)) ∧
    (¬ validate_report exFaked.trust_scores exFaked.vehicle_positions (heapGet exFaked 0) < 3/10 →
      trustGet (processOne exFaked 0).trust_scores (heapGet exFaked 0).vehicle_id =
        min 1 (trustGet exFaked.trust_scores (heapGet exFaked 0).vehicle_id + 1/10)) ∧
    (∀ v, v ≠ (heapGet exFaked 0).vehicle_id →
      trustGet (processOne exFaked 0).trust_scores v = trustGet exFaked.trust_scores v) ∧
    (∀ veh ty t, (create_real_incident exFaked veh ty t).trust_scores = exFaked.trust_scores) ∧
    (∀ t due off fty, (generate_fake_reports exFaked t due off fty).trust_scores = exFaked.trust_scores) ∧
    (∀ r, ((submit_report_to_rsu exFaked r).1).trust_scores = exFaked.trust_scores) ∧
    (dispatch_emergency_services exFaked).trust_scores = exFaked.trust_scores ∧
    (update_rsu_coverage exFaked).trust_scores = exFaked.trust_scores :=
  validation_updates_reputation_exactly_once exFaked 0 (by
    norm_num [exFaked, exSnap, generate_fake_reports, fakeStep, posGet, initState,
      submit_report_to_rsu, selectRSU, selectStep, ivirsRsus, dist2, heapGet,
      mkIncidentReport])

/-- C2 (amended): dispatch is keyed by reporter id alone.  After a
dispatch pass a reporter is in the emergency set iff it was already
there or it has some validated report with score ≥ 0.7 in
`all_reports`, and the dispatch counter grows exactly by the number of
newly inserted reporters — so a second dispatch-eligible report from
the same reporter never dispatches again, even with a distinct
timestamp, while reports from distinct reporters each dispatch. -/
theorem dispatch_is_keyed_by_reporter_id (s : ControllerState) :
    (∀ v, v ∈ (dispatch_emergency_services s).emergency_vehicles ↔
      v ∈ s.emergency_vehicles ∨ ∃ rid, rid ∈ s.all_reports ∧
        (heapGet s rid).validated = true ∧
        7/10 ≤ (heapGet s rid).trust_score ∧ (heapGet s rid).vehicle_id = v) ∧
    (dispatch_emergency_services s).stats_emergency_dispatches +
        s.emergency_vehicles.length =
      s.stats_emergency_dispatches +
        (dispatch_emergency_services s).emergency_vehicles.length := by
  unfold dispatch_emergency_services
  exact dispatch_fold_spec s s.all_reports s rfl

/-- C2 (counterexample): two validated dispatch-eligible reports from
the same reporter with distinct timestamps yield one dispatch, not two
— the ledger key is the reporter id, not `(reporter_id, timestamp)`. -/
theorem dispatch_dedup_counterexample :
    (heapGet twoReportState 0).vehicle_id = (heapGet twoReportState 1).vehicle_id ∧
    (heapGet twoReportState 0).timestamp ≠ (heapGet twoReportState 1).timestamp ∧
    (heapGet twoReportState 0).validated = true ∧
    7/10 ≤ (heapGet twoReportState 0).trust_score ∧
    (heapGet twoReportState 1).validated = true ∧
    7/10 ≤ (heapGet twoReportState 1).trust_score ∧
    twoReportState.emergency_vehicles = [] ∧
    twoReportState.stats_emergency_dispatches = 0 ∧
    (dispatch_emergency_services twoReportState).stats_emergency_dispatches = 1 := by
  norm_num [twoReportState, initState, heapGet, mkIncidentReport,
    dispatch_emergency_services, dispatchStep]


/-- C5: for a controller whose RSUs have strictly increasing ids and
the uniform 500-unit radius (as installed by `__init__`), routing
assigns a submitted report to at most one node: when the scan selects a
node, that node covers the location, is at minimum distance among
covering nodes with ties broken by lowest id, is the unique node with
its id, and acceptance appends the report to exactly that node's queue
and bumps `total_reports` by one; when every node is farther than its
500-unit radius (in particular the nearest), the report is assigned to
no node, enters no queue, and the state — `total_reports` included — is
untouched. -/
theorem coverage_routing_assigns_nearest (s : ControllerState) (rid : Nat)
    (hpw : s.rsus.Pairwise (fun a b => a.id < b.id))
    (hunif : ∀ r ∈ s.rsus, r.coverage_radius = 500) :
    (∀ d c, selectRSU s.rsus (heapGet s rid).location = some (d, c) →
      c ∈ s.rsus ∧ covers c (heapGet s rid).location ∧
      (∀ r ∈ s.rsus, covers r (heapGet s rid).location →
        dist2 (heapGet s rid).location (c.x, c.y) ≤
          dist2 (heapGet s rid).location (r.x, r.y) ∧
        (dist2 (heapGet s rid).location (r.x, r.y) =
            dist2 (heapGet s rid).location (c.x, c.y) → c.id ≤ r.id)) ∧
      (∀ r ∈ s.rsus, r.id = c.id → r = c) ∧
      submit_report_to_rsu s rid = ({ s with
        reports := s.reports.set rid { heapGet s rid with rsu_id := some c.id }
        rsus := s.rsus.map fun r' =>
          if r'.id = c.id then
            { r' with reports_received := r'.reports_received ++ [rid] }
          else r'
        all_reports := s.all_reports ++ [rid]
        stats_total_reports := s.stats_total_reports + 1 }, true)) ∧
    ((∀ r ∈ s.rsus, (500:ℚ)^2 < dist2 (heapGet s rid).location (r.x, r.y)) →
      submit_report_to_rsu s rid = (s, false)) := by
  constructor
  · intro d c hdc
    have hsel := selectRSU_selAcc (heapGet s rid).location s.rsus hpw
    rw [hdc] at hsel
    obtain ⟨hmem, hd, hcov, hmin⟩ := hsel
    subst hd
    refine ⟨hmem, hcov, ?_, ?_, ?_⟩
    · exact fun r hr hc => hmin r hr hc
    · exact fun r hr heq => pairwise_id_inj s.rsus hpw r hr c hmem heq
    · exact submit_eq_of_some s rid _ c hdc
  · intro hfar
    apply submit_eq_of_none
    apply selectRSU_eq_none
    intro r hr hcov
    unfold covers at hcov
    rw [hunif r hr] at hcov
    exact absurd hcov (not_le.mpr (hfar r hr))

/-- C5 witness: the routing theorem applied to the freshly initialised
controller. -/
theorem coverage_routing_witness :
    (∀ d c, selectRSU initState.rsus (heapGet initState 0).location = some (d, c) →
      c ∈ initState.rsus ∧ covers c (heapGet initState 0).location ∧
      (∀ r ∈ initState.rsus, covers r (heapGet initState 0).location →
        dist2 (heapGet initState 0).location (c.x, c.y) ≤
          dist2 (heapGet initState 0).location (r.x, r.y) ∧
        (dist2 (heapGet initState 0).location (r.x, r.y) =
            dist2 (heapGet initState 0).location (c.x, c.y) → c.id ≤ r.id)) ∧
      (∀ r ∈ initState.rsus, r.id = c.id → r = c) ∧
      submit_report_to_rsu initState 0 = ({ initState with
        reports := initState.reports.set 0 { heapGet initState 0 with rsu_id := some c.id }
        rsus := initState.rsus.map fun r' =>
          if r'.id = c.id then
            { r' with reports_received := r'.reports_received ++ [0] }
          else r'
        all_reports := initState.all_reports ++ [0]
        stats_total_reports := initState.stats_total_reports + 1 }, true)) ∧
    ((∀ r ∈ initState.rsus, (500:ℚ)^2 < dist2 (heapGet initState 0).location (r.x, r.y)) →
      submit_report_to_rsu initState 0 = (initState, false)) :=
  coverage_routing_assigns_nearest initState 0
    (by norm_num [initState, ivirsRsus, List.pairwise_cons])
    (by
      intro r hr
      simp only [initState, ivirsRsus, List.mem_cons, List.not_mem_nil, or_false] at hr
      rcases hr with rfl | rfl | rfl | rfl | rfl | rfl <;> rfl)

/-- C9 (amended): a report whose declared location lies outside every
node's coverage is dropped silently — the submit call returns `false`
and leaves the state, every counter included, exactly unchanged; it is
never a fatal error.  (No dropped-reports counter exists in the
controller: the `stats` record carries only the six counters of
`__init__`, all unchanged here.) -/
theorem out_of_coverage_dropped_silently (s : ControllerState) (rid : Nat)
    (h : ∀ r ∈ s.rsus, ¬ covers r (heapGet s rid).location) :
    submit_report_to_rsu s rid = (s, false) :=
  submit_eq_of_none s rid (selectRSU_eq_none s.rsus (heapGet s rid).location h)

/-- C9 (counterexample): a concrete report at `(20000, 0)` is outside
every RSU's radius, and submitting it returns `false` with the state
completely unchanged — so no dropped-reports counter is incremented,
because none exists. -/
theorem no_dropped_reports_counter :
    (∀ r ∈ strandedReportState.rsus, ¬ covers r (heapGet strandedReportState 0).location) ∧
    submit_report_to_rsu strandedReportState 0 = (strandedReportState, false) := by
  have h : ∀ r ∈ strandedReportState.rsus, ¬ covers r (heapGet strandedReportState 0).location := by
    intro r hr
    simp only [strandedReportState, initState, ivirsRsus, List.mem_cons,
      List.not_mem_nil, or_false] at hr
    rcases hr with rfl | rfl | rfl | rfl | rfl | rfl <;>
      norm_num [covers, dist2, heapGet, strandedReportState, initState, mkIncidentReport]
  exact ⟨h, submit_eq_of_none strandedReportState 0
    (selectRSU_eq_none strandedReportState.rsus (heapGet strandedReportState 0).location h)⟩

/-- C9 witness: the amended drop theorem applied at the concrete
out-of-coverage state. -/
theorem out_of_coverage_witness :
    submit_report_to_rsu strandedReportState 0 = (strandedReportState, false) :=
  out_of_coverage_dropped_silently strandedReportState 0 (by
    intro r hr
    simp only [strandedReportState, initState, ivirsRsus, List.mem_cons,
      List.not_mem_nil, or_false] at hr
    rcases hr with rfl | rfl | rfl | rfl | rfl | rfl <;>
      norm_num [covers, dist2, heapGet, strandedReportState, initState, mkIncidentReport])

/-- C3 (amended): a genuine incident whose reporter has a known
position is recorded in `real_incidents` (and its counter bumped), but
the report authored by the incident's own reporter is never submitted
toward any RSU queue; when no honest vehicle lies within the 200-unit
corroboration radius the operation submits nothing at all — queues,
`all_reports` and `total_reports` stay exactly as they were. -/
theorem incident_recorded_but_not_routed (s : ControllerState)
    (veh_id incident_type : String) (t : ℚ) (pos : ℚ × ℚ)
    (hp : posGet s.vehicle_positions veh_id = some pos)
    (hw : ∀ w ∈ s.honest_vehicles, ∀ wp,
      posGet s.vehicle_positions w = some wp → ¬ dist2 pos wp < 200 ^ 2) :
    create_real_incident s veh_id incident_type t = { s with
      reports := s.reports ++ [mkIncidentReport veh_id incident_type pos t false]
      real_incidents := s.real_incidents ++ [s.reports.length]
      stats_real_incidents := s.stats_real_incidents + 1 } := by
  unfold create_real_incident
  rw [hp]
  dsimp only
  rw [foldl_id]
  intro w hwmem
  exact witnessStep_id incident_type pos t s.reports.length _ w (fun wp hwp => hw w hwmem wp hwp)

/-- C3 (counterexample): a reporter at the origin — inside RSU 0's
coverage — with zero honest vehicles: `create_real_incident` records
the incident but submits nothing; `total_reports` stays 0, every queue
stays empty, so the reporter's own report was not routed. -/
theorem incident_own_report_not_routed :
    posGet lonelyReporterState.vehicle_positions "v" = some (0, 0) ∧
    lonelyReporterState.rsus = ivirsRsus ∧
    covers ⟨0, 0, -50, 500, ([] : List Nat), ([] : List String)⟩ (0, 0) ∧
    lonelyReporterState.honest_vehicles = [] ∧
    (create_real_incident lonelyReporterState "v" "breakdown" 5).stats_total_reports = 0 ∧
    (create_real_incident lonelyReporterState "v" "breakdown" 5).all_reports = [] ∧
    (create_real_incident lonelyReporterState "v" "breakdown" 5).rsus = ivirsRsus ∧
    (create_real_incident lonelyReporterState "v" "breakdown" 5).real_incidents = [0] ∧
    (create_real_incident lonelyReporterState "v" "breakdown" 5).stats_real_incidents = 1 := by
  norm_num [create_real_incident, witnessStep, posGet, lonelyReporterState,
    initState, mkIncidentReport, covers, dist2]

/-- C3 witness: the amended incident theorem applied at the concrete
single-vehicle state. -/
theorem incident_not_routed_witness :
    create_real_incident lonelyReporterState "v" "breakdown" 5 = { lonelyReporterState with
      reports := lonelyReporterState.reports ++ [mkIncidentReport "v" "breakdown" (0, 0) 5 false]
      real_incidents := lonelyReporterState.real_incidents ++ [lonelyReporterState.reports.length]
      stats_real_incidents := lonelyReporterState.stats_real_incidents + 1 } :=
  incident_recorded_but_not_routed lonelyReporterState "v" "breakdown" 5 (0, 0)
    (by norm_num [lonelyReporterState, initState, posGet])
    (by intro w hwmem; simp [lonelyReporterState, initState] at hwmem)


/-- C6: validation is idempotent in every reachable controller state —
a second pass of the node-queue processing step is a no-op, leaving the
whole state (every report's trust score and validated status, the
detected-fakes list, every counter, and the reputation store) exactly
as the first pass left it. -/
theorem validation_is_idempotent (s : ControllerState) (h : Reachable s) :
    process_reports_at_rsus (process_reports_at_rsus s) = process_reports_at_rsus s := by
  apply process_id
  apply process_validates_all
  exact fun rid hin => ((reachable_inv s h).1 rid hin).1

/-- C6 witness: idempotence at the concrete reachable state holding one
queued fake report. -/
theorem validation_idempotent_witness :
    process_reports_at_rsus (process_reports_at_rsus exFaked) =
      process_reports_at_rsus exFaked :=
  validation_is_idempotent exFaked exFaked_reachable

/-- C8: witness corroboration never touches fake reports.  In every
reachable state every fake report in the heap has an empty witness set;
moreover a fake-report tick never adds an entry to any existing
report's witness set, and every report it creates is itself fake with
an empty witness set (it synthesizes no witness reports), regardless of
which honest vehicles are nearby. -/
theorem fakes_never_corroborated (s : ControllerState) (h : Reachable s) :
    (∀ rid, rid < s.reports.length → (heapGet s rid).is_fake = true →
      (heapGet s rid).witnesses = []) ∧
    (∀ (t : ℚ) (due : String → Bool) (off : String → ℚ × ℚ)
        (fake_type : String → String) (rid : Nat), rid < s.reports.length →
      (heapGet (generate_fake_reports s t due off fake_type) rid).witnesses =
        (heapGet s rid).witnesses) ∧
    (∀ (t : ℚ) (due : String → Bool) (off : String → ℚ × ℚ)
        (fake_type : String → String) (rid : Nat), s.reports.length ≤ rid →
      rid < (generate_fake_reports s t due off fake_type).reports.length →
      (heapGet (generate_fake_reports s t due off fake_type) rid).is_fake = true ∧
      (heapGet (generate_fake_reports s t due off fake_type) rid).witnesses = []) := by
  refine ⟨(reachable_inv s h).2, ?_, ?_⟩
  · intro t due off fake_type rid hrid
    exact ((genfake_fold s.malicious_vehicles t due off fake_type s).2.1 rid hrid).1
  · intro t due off fake_type rid h1 h2
    exact (genfake_fold s.malicious_vehicles t due off fake_type s).2.2 rid h1 h2

/-- C8 witness: the fake-report invariant applied at the concrete
reachable state holding one fake report. -/
theorem fakes_never_corroborated_witness :
    ((heapGet exFaked 0).is_fake = true → (heapGet exFaked 0).witnesses = []) ∧
    ((heapGet (generate_fake_reports exFaked 9 (fun _ => false) (fun _ => (0, 0))
        (fun _ => "hazard")) 0).witnesses = (heapGet exFaked 0).witnesses) := by
  have h0 : (0 : Nat) < exFaked.reports.length := by
    norm_num [exFaked, exSnap, generate_fake_reports, fakeStep, posGet, initState,
      submit_report_to_rsu, selectRSU, selectStep, ivirsRsus, dist2, heapGet,
      mkIncidentReport]
  exact ⟨(fakes_never_corroborated exFaked exFaked_reachable).1 0 h0,
    (fakes_never_corroborated exFaked exFaked_reachable).2.1 9 (fun _ => false)
      (fun _ => (0, 0)) (fun _ => "hazard") 0 h0⟩

/-- C10: in every reachable controller state, every report sitting in
any RSU queue — hence every report the Validation Engine ever scores —
has an empty witness set, and on any report with an empty witness set
`validate_report` computes the formula with the witness-count-zero term
(−0.2, i.e. `witnessTerm 0`): the +0.4 and +0.2 witness branches are
never taken in the pipeline. -/
theorem queued_reports_have_empty_witnesses (s : ControllerState) (h : Reachable s) :
    (∀ r ∈ s.rsus, ∀ rid ∈ r.reports_received, (heapGet s rid).witnesses = []) ∧
    (∀ (trust : List (String × ℚ)) (positions : List (String × (ℚ × ℚ)))
        (rep : IncidentReport), rep.witnesses = [] →
      validate_report trust positions rep =
        scoreSpec (trustGet trust rep.vehicle_id) 0
          ((posGet positions rep.vehicle_id).map fun p => dist2 p rep.location)) := by
  constructor
  · intro r hr rid hrid
    exact ((reachable_inv s h).1 rid ⟨r, hr, hrid⟩).2
  · intro trust positions rep hw
    unfold validate_report scoreSpec witnessTerm locTerm
    rw [hw]
    simp only [List.length_nil]
    cases posGet positions rep.vehicle_id with
    | none =>
        simp only [Option.map_none']
        split_ifs <;> ring_nf
    | some p =>
        simp only [Option.map_some']
        split_ifs <;> ring_nf

/-- C10 witness: the queued-report invariant applied at the concrete
reachable state with one queued report, and the −0.2 scoring shape at a
concrete zero-witness report. -/
theorem queued_reports_witness :
    (heapGet exFaked 0).witnesses = [] ∧
    validate_report [] [] (mkIncidentReport "w" "accident" (0, 0) 1 false) =
      scoreSpec (trustGet [] "w") 0 ((posGet [] "w").map
        fun p => dist2 p (mkIncidentReport "w" "accident" (0, 0) 1 false).location) :=
  ⟨(queued_reports_have_empty_witnesses exFaked exFaked_reachable).1
      ⟨0, 0, -50, 500, [0], []⟩
      (by norm_num [exFaked, exSnap, generate_fake_reports, fakeStep, posGet,
        initState, submit_report_to_rsu, selectRSU, selectStep, ivirsRsus, dist2,
        heapGet, mkIncidentReport])
      0 (by norm_num),
    (queued_reports_have_empty_witnesses exFaked exFaked_reachable).2 [] []
      (mkIncidentReport "w" "accident" (0, 0) 1 false) rfl⟩
